import Mathlib

set_option maxRecDepth 4096
set_option linter.all false

/-!
Verification of the nand2tetris toolchain (Hack assembler, VM translator,
Jack syntax analyser) against its natural-language specification.

The Python sources are shallowly embedded:
* `Assembler` embeds `projects/06/assembler.py` (binary encoding stage);
* `VM` embeds `projects/08/VMTranslator.py` (parser loop and code writer),
  together with an operational semantics for the emitted Hack assembly,
  restricted to the instruction strings the code writer actually emits;
* `Jack` embeds `projects/10/SyntaxAnalyser.py` (the recursive-descent
  compilation engine over token streams; exceptions used for control flow
  become explicit error values).

Machine words are 16-bit; arithmetic is carried out on `Nat` with explicit
reduction `% 65536` wherever the hardware would wrap.

The file is organised as definitions first, then all theorems.
-/

/-! ## Definitions -/

/-! ### Decimal digit strings

Python interpolates integers into emitted label and instruction text with
`f"...{n}"`, i.e. decimal notation.  `natStr` is that decimal rendering,
written with explicit fuel so that the kernel can evaluate it inside
`decide`.  `parseNat` parses a digit string back (modelling Python's
`int(...)` on digit strings and the Hack assembler's treatment of numeric
`@`-instruction symbols).
-/

namespace StrAux

def digitChar (d : Nat) : Char := Char.ofNat (48 + d)

def natDigitsGo : Nat → Nat → List Char
  | 0, _ => []
  | fuel + 1, n =>
    if n < 10 then [digitChar n]
    else natDigitsGo fuel (n / 10) ++ [digitChar (n % 10)]

def natDigits (n : Nat) : List Char := natDigitsGo (n + 1) n

/-- Decimal rendering of a natural number, as Python's str(n). -/
def natStr (n : Nat) : String := String.mk (natDigits n)

def isDigitChar (c : Char) : Bool := 48 ≤ c.toNat && c.toNat ≤ 57

def digitsVal (l : List Char) : Nat := l.foldl (fun a c => a * 10 + (c.toNat - 48)) 0

def parseNatGo : Nat → List Char → Option Nat
  | acc, [] => some acc
  | acc, c :: cs =>
    if isDigitChar c then parseNatGo (acc * 10 + (c.toNat - 48)) cs else none

def parseNat (s : String) : Option Nat :=
  match s.data with
  | [] => none
  | l => parseNatGo 0 l

end StrAux

open StrAux

/-! ### VM translator: data model (projects/08/VMTranslator.py)

`ArithmeticCommandTypes` and `SegmentTypes` are the enums of the source; a
parsed source line is summarised by `VMCommand`.
-/

namespace VM

inductive ArithmeticCommandTypes where
  | add | sub | neg | eq | gt | lt | and | or | not
  deriving DecidableEq, Repr

inductive SegmentTypes where
  | local | argument | this | that | constant | static | temp | pointer
  deriving DecidableEq, Repr

inductive VMCommand where
  | arithmetic (op : ArithmeticCommandTypes)
  | push (segment : SegmentTypes) (index : Nat)
  | pop (segment : SegmentTypes) (index : Nat)
  | labelCmd (name : String)
  | gotoCmd (name : String)
  | ifGotoCmd (name : String)
  | functionCmd (name : String) (nArgs : Nat)
  | callCmd (name : String) (nArgs : Nat)
  | returnCmd
  deriving DecidableEq, Repr

/-- CodeWriter.jumpLabel: `f"COND_JUMP.{self.labelCounter}"`. -/
def jumpLabel (labelCounter : Nat) : String := "COND_JUMP." ++ natStr labelCounter

/-- CodeWriter.endLabel: `f"COND_JUMP_END.{self.labelCounter}"`. -/
def endLabel (labelCounter : Nat) : String := "COND_JUMP_END." ++ natStr labelCounter

/-- CodeWriter.writeCall: `returnAddrLabel = f"{function_name}.RETURN.{self.labelCounter}"`. -/
def returnAddrLabel (function_name : String) (labelCounter : Nat) : String :=
  function_name ++ ".RETURN." ++ natStr labelCounter

/-- The fresh labels a command's emission mints from the current label
counter: a comparison mints the `jumpLabel`/`endLabel` pair
(CodeWriter.getArithmeticAsm), a call mints its return-address label
(CodeWriter.writeCall); no other command consumes the counter. -/
def mintedLabels (cmd : VMCommand) (labelCounter : Nat) : List String :=
  match cmd with
  | .arithmetic op =>
      if op = .eq ∨ op = .gt ∨ op = .lt then [jumpLabel labelCounter, endLabel labelCounter]
      else []
  | .callCmd f _ => [returnAddrLabel f labelCounter]
  | _ => []

/-- The main loop's counter discipline: `codeWriter.labelCounter += 1` runs
once before each command is emitted, so the command at position `k` is
emitted with counter value `c0 + k + 1`. -/
def translateCounters : List VMCommand → Nat → List (VMCommand × Nat)
  | [], _ => []
  | cmd :: rest, c => (cmd, c + 1) :: translateCounters rest (c + 1)

/-- Parser.hasMoreLines: `if self.line_index >= len(self.lines) - 1: return
False; return True`.  (For `len = 0` Python compares against `-1` and
returns False; truncated subtraction gives the same boolean.) -/
def hasMoreLines (lines : List String) (line_index : Nat) : Bool :=
  if lines.length - 1 ≤ line_index then false else true

/-- Parser.advance: `if self.hasMoreLines(): self.line_index += 1`. -/
def advance (lines : List String) (line_index : Nat) : Nat :=
  if hasMoreLines lines line_index then line_index + 1 else line_index

/-- The sequence of `line_index` values at which the body of the main
translation loop runs: `while parser.hasMoreLines(): parser.advance(); …`
starting from current index `i` (the loop body sees the index after
`advance`). -/
def loopVisits (lines : List String) (i : Nat) : List Nat :=
  if h : hasMoreLines lines i then (i + 1) :: loopVisits lines (i + 1) else []
  termination_by lines.length - i
  decreasing_by
    unfold hasMoreLines at h
    split at h
    · exact absurd h (by simp)
    · omega

/-- Indices whose lines the loop actually translates: the body skips
`curr_line == ""` with `continue`. -/
def translatedIndices (lines : List String) : List Nat :=
  (loopVisits lines 0).filter (fun k => lines.getD k "" ≠ "")

/-! #### Emitted assembly text (all writers below are the DEBUG-off
emissions, line for line). -/

/-- CodeWriter.getPushAsm.  `file_name` is the CodeWriter's current unit
name used for the static segment. -/
def getPushAsm (file_name : String) (segment : SegmentTypes) (index : Nat) : List String :=
  (match segment with
   | .constant => ["@" ++ natStr index, "D=A"]
   | .static => ["@" ++ (file_name ++ "." ++ natStr index), "D=M"]
   | .local => ["@" ++ natStr index, "D=A", "@LCL", "A=M", "A=D+A", "D=M"]
   | .argument => ["@" ++ natStr index, "D=A", "@ARG", "A=M", "A=D+A", "D=M"]
   | .this => ["@" ++ natStr index, "D=A", "@THIS", "A=M", "A=D+A", "D=M"]
   | .that => ["@" ++ natStr index, "D=A", "@THAT", "A=M", "A=D+A", "D=M"]
   | .temp => ["@" ++ natStr index, "D=A", "@" ++ "5", "A=D+A", "D=M"]
   | .pointer => (if index = 0 then ["@THIS"] else ["@THAT"]) ++ ["A=M", "D=A"])
  ++ ["@SP", "A=M", "M=D", "@SP", "M=M+1"]

/-- The closing lines shared by the non-static pop cases:
`RAM[addr] ← RAM[SP-1]` through R13, then `SP--`. -/
def popStoreTail : List String :=
  ["@SP", "A=M-1", "D=M", "@" ++ "R13", "A=M", "M=D", "@SP", "M=M-1"]

/-- CodeWriter.getPopAsm; `none` models the raised exception on
`pop constant`. -/
def getPopAsm (file_name : String) (segment : SegmentTypes) (index : Nat) :
    Option (List String) :=
  match segment with
  | .constant => none
  | .static => some ["@SP", "A=M-1", "D=M", "@" ++ (file_name ++ "." ++ natStr index),
      "M=D", "@SP", "M=M-1"]
  | .local => some (["@" ++ natStr index, "D=A", "@LCL", "A=M", "D=D+A",
      "@" ++ "R13", "M=D"] ++ popStoreTail)
  | .argument => some (["@" ++ natStr index, "D=A", "@ARG", "A=M", "D=D+A",
      "@" ++ "R13", "M=D"] ++ popStoreTail)
  | .this => some (["@" ++ natStr index, "D=A", "@THIS", "A=M", "D=D+A",
      "@" ++ "R13", "M=D"] ++ popStoreTail)
  | .that => some (["@" ++ natStr index, "D=A", "@THAT", "A=M", "D=D+A",
      "@" ++ "R13", "M=D"] ++ popStoreTail)
  | .temp => some (["@" ++ natStr index, "D=A", "@" ++ "5", "D=D+A",
      "@" ++ "R13", "M=D"] ++ popStoreTail)
  | .pointer => some ((if index = 0 then ["@THIS"] else ["@THAT"]) ++
      ["D=A", "@" ++ "R13", "M=D"] ++ popStoreTail)

/-- CodeWriter.writeLabel. -/
def writeLabel (label : String) : List String := ["(" ++ label ++ ")"]

/-- CodeWriter.writeGoto. -/
def writeGoto (label : String) : List String := ["@" ++ label, "0;JMP"]

/-- CodeWriter.writeIfGoto: pop the stack top, jump when it is non-zero. -/
def writeIfGoto (label : String) : List String :=
  ["@SP", "A=M-1", "D=M", "@SP", "M=M-1", "@" ++ label, "D;JNE"]

/-- The shared comparison skeleton of CodeWriter.getArithmeticAsm for
eq/gt/lt: compute `M-D`, branch on the given jump instruction to push -1,
fall through to push 0, join at the end label, adjust SP. -/
def comparisonAsm (jump : String) (labelCounter : Nat) : List String :=
  ["@SP", "A=M-1", "D=M", "A=A-1", "D=M-D",
   "@" ++ jumpLabel labelCounter, jump,
   "@SP", "A=M-1", "A=A-1", "M=0", "@" ++ endLabel labelCounter, "0;JMP",
   "(" ++ jumpLabel labelCounter ++ ")",
   "@SP", "A=M-1", "A=A-1", "M=-1",
   "(" ++ endLabel labelCounter ++ ")",
   "@SP", "M=M-1"]

/-- CodeWriter.getArithmeticAsm at the given label-counter value. -/
def getArithmeticAsm (command : ArithmeticCommandTypes) (labelCounter : Nat) : List String :=
  match command with
  | .not => ["@SP", "A=M-1", "M=!M"]
  | .neg => ["@SP", "A=M-1", "M=-M"]
  | .and => ["@SP", "A=M-1", "D=M", "A=A-1", "M=D&M", "@SP", "M=M-1"]
  | .or => ["@SP", "A=M-1", "D=M", "A=A-1", "M=D|M", "@SP", "M=M-1"]
  | .add => ["@SP", "A=M-1", "D=M", "A=A-1", "M=D+M", "@SP", "M=M-1"]
  | .sub => ["@SP", "A=M-1", "D=M", "A=A-1", "M=M-D", "@SP", "M=M-1"]
  | .lt => comparisonAsm "D;JLT" labelCounter
  | .gt => comparisonAsm "D;JGT" labelCounter
  | .eq => comparisonAsm "D;JEQ" labelCounter

/-- CodeWriter.writeCall at the given label-counter value; the loop over
`["@LCL", "@ARG", "@THIS", "@THAT"]` is unrolled. -/
def writeCall (function_name : String) (nArgs : Nat) (labelCounter : Nat) : List String :=
  ["@" ++ returnAddrLabel function_name labelCounter,
   "D=A", "@SP", "A=M", "M=D", "@SP", "M=M+1",
   "@LCL", "D=M", "@SP", "A=M", "M=D", "@SP", "M=M+1",
   "@ARG", "D=M", "@SP", "A=M", "M=D", "@SP", "M=M+1",
   "@THIS", "D=M", "@SP", "A=M", "M=D", "@SP", "M=M+1",
   "@THAT", "D=M", "@SP", "A=M", "M=D", "@SP", "M=M+1",
   "@SP", "D=M", "@" ++ "5", "D=D-A", "@" ++ natStr nArgs, "D=D-A", "@ARG", "M=D",
   "@SP", "D=M", "@LCL", "M=D",
   "@" ++ function_name, "0;JMP",
   "(" ++ returnAddrLabel function_name labelCounter ++ ")"]

/-- CodeWriter.writeReturn; the restore loop over THAT, THIS, ARG, LCL
with n = 1, 2, 3, 4 is unrolled (`@endframe` is the source's name for its
frame-end scratch variable, `@retAddr` for the return-address scratch). -/
def writeReturnAsm : List String :=
  ["@LCL", "D=M", "@endframe", "M=D",
   "@endframe", "D=M", "@" ++ "5", "D=D-A", "A=D", "D=M", "@retAddr", "M=D",
   "@SP", "A=M-1", "D=M", "@ARG", "A=M", "M=D", "@SP", "M=M-1",
   "@ARG", "D=M+1", "@SP", "M=D",
   "@endframe", "D=M", "@" ++ natStr 1, "A=D-A", "D=M", "@THAT", "M=D",
   "@endframe", "D=M", "@" ++ natStr 2, "A=D-A", "D=M", "@THIS", "M=D",
   "@endframe", "D=M", "@" ++ natStr 3, "A=D-A", "D=M", "@ARG", "M=D",
   "@endframe", "D=M", "@" ++ natStr 4, "A=D-A", "D=M", "@LCL", "M=D",
   "@retAddr", "A=M", "0;JMP"]

/-! #### Operational semantics of the emitted Hack assembly

Words are 16-bit; `w` wraps to a word.  `resolveSym` models the downstream
Hack assembler's symbol resolution: the predefined registers, numeric
literals, label pseudo-lines of the program (which keep their slot here,
executing as no-ops, so a label's index is its jump target), and an
environment `env` for the assembler-allocated variables.  `cstep` gives
the semantics of exactly the C-instruction strings the code writer emits;
anything else is stuck. -/

/-- 16-bit word size of the Hack machine. -/
def W : Nat := 65536

/-- Wrap to a 16-bit word. -/
def w (x : Nat) : Nat := x % W

/-- Two's-complement subtraction on 16-bit words. -/
def wsub (x y : Nat) : Nat := (w x + W - w y) % W

/-- Two's-complement negation. -/
def wneg (x : Nat) : Nat := (W - w x) % W

/-- Bitwise NOT on a 16-bit word. -/
def wnot (x : Nat) : Nat := 65535 - w x

structure Mach where
  a : Nat
  d : Nat
  ram : Nat → Nat

/-- Write one RAM word. -/
def wr (m : Mach) (addr v : Nat) : Mach :=
  { m with ram := fun x => if x = addr then v else m.ram x }

/-- The predefined Hack symbols the code writer relies on. -/
def predefSyms : List (String × Nat) :=
  [("SP", 0), ("LCL", 1), ("ARG", 2), ("THIS", 3), ("THAT", 4), ("R13", 13), ("R14", 14)]

def findLabelGo : List String → String → Nat → Option Nat
  | [], _, _ => none
  | line :: rest, sym, k =>
    if line.data = '(' :: (sym.data ++ [')']) then some k
    else findLabelGo rest sym (k + 1)

/-- Index of the line declaring label `sym` (the assembler's label pass,
with label lines keeping their slot). -/
def findLabel (prog : List String) (sym : String) : Option Nat := findLabelGo prog sym 0

/-- Resolution of an `@sym` operand. -/
def resolveSym (prog : List String) (env : String → Nat) (sym : String) : Nat :=
  match predefSyms.lookup sym with
  | some a => a
  | none =>
    match parseNat sym with
    | some n => n
    | none =>
      match findLabel prog sym with
      | some k => k
      | none => env sym

/-- One C-instruction, by its exact emitted text: the updated machine and
whether the jump condition held (the next pc is then the A register). -/
def cstep (line : String) (m : Mach) : Option (Mach × Bool) :=
  match line with
  | "D=A" => some ({ m with d := m.a }, false)
  | "A=D" => some ({ m with a := m.d }, false)
  | "D=M" => some ({ m with d := w (m.ram m.a) }, false)
  | "A=M" => some ({ m with a := w (m.ram m.a) }, false)
  | "M=D" => some (wr m m.a m.d, false)
  | "A=M-1" => some ({ m with a := wsub (m.ram m.a) 1 }, false)
  | "A=A-1" => some ({ m with a := wsub m.a 1 }, false)
  | "M=M+1" => some (wr m m.a (w (m.ram m.a + 1)), false)
  | "M=M-1" => some (wr m m.a (wsub (m.ram m.a) 1), false)
  | "D=M+1" => some ({ m with d := w (m.ram m.a + 1) }, false)
  | "D=D-A" => some ({ m with d := wsub m.d m.a }, false)
  | "D=D+A" => some ({ m with d := w (m.d + m.a) }, false)
  | "A=D+A" => some ({ m with a := w (m.d + m.a) }, false)
  | "A=D-A" => some ({ m with a := wsub m.d m.a }, false)
  | "D=M-D" => some ({ m with d := wsub (m.ram m.a) m.d }, false)
  | "M=M-D" => some (wr m m.a (wsub (m.ram m.a) m.d), false)
  | "M=D+M" => some (wr m m.a (w (m.d + m.ram m.a)), false)
  | "M=D&M" => some (wr m m.a (Nat.land (w m.d) (w (m.ram m.a))), false)
  | "M=D|M" => some (wr m m.a (Nat.lor (w m.d) (w (m.ram m.a))), false)
  | "M=!M" => some (wr m m.a (wnot (m.ram m.a)), false)
  | "M=-M" => some (wr m m.a (wneg (m.ram m.a)), false)
  | "M=0" => some (wr m m.a 0, false)
  | "M=-1" => some (wr m m.a 65535, false)
  | "0;JMP" => some (m, true)
  | "D;JNE" => some (m, decide (w m.d ≠ 0))
  | "D;JEQ" => some (m, decide (w m.d = 0))
  | "D;JLT" => some (m, decide (32768 ≤ w m.d))
  | "D;JGT" => some (m, decide (0 < w m.d ∧ w m.d < 32768))
  | _ => none

/-- The non-jumping part of one instruction's semantics: label lines are
no-ops, `@`-lines load the resolved symbol into A, C-instructions whose
jump condition does not fire go through `cstep`; a taken jump (or an
unknown line) is `none`. -/
def execLine (res : String → Nat) (line : String) (m : Mach) : Option Mach :=
  match line.data with
  | '(' :: _ => some m
  | '@' :: rest => some { m with a := w (res (String.mk rest)) }
  | _ =>
    match cstep line m with
    | some (m2, false) => some m2
    | _ => none

/-- Straight-line execution of an instruction list (used to walk the
jump-free portions of a block). -/
def execSeq (res : String → Nat) : List String → Mach → Option Mach
  | [], m => some m
  | line :: rest, m =>
    match execLine res line m with
    | none => none
    | some m2 => execSeq res rest m2

/-- One machine step at `pc`: a non-jumping instruction advances to
`pc + 1`; a taken jump continues at the address held in A. -/
def step (prog : List String) (env : String → Nat) (m : Mach) (pc : Nat) :
    Option (Mach × Nat) :=
  match prog[pc]? with
  | none => none
  | some line =>
    match execLine (resolveSym prog env) line m with
    | some m2 => some (m2, pc + 1)
    | none =>
      match cstep line m with
      | some (m2, true) => some (m2, m2.a)
      | _ => none

/-- Run until the pc leaves the program (by fall-through or an outward
jump); `none` when stuck or out of fuel. -/
def run (prog : List String) (env : String → Nat) :
    Nat → Mach → Nat → Option (Mach × Nat)
  | 0, _, _ => none
  | fuel + 1, m, pc =>
    if pc < prog.length then
      match step prog env m pc with
      | none => none
      | some (m2, pc2) => run prog env fuel m2 pc2
    else some (m, pc)

/-- Execute one emitted block from its first line. -/
def runBlock (prog : List String) (env : String → Nat) (m : Mach) : Option (Mach × Nat) :=
  run prog env 100 m 0

/-- The RAM address a `pop` block stores the popped word at (the value the
block routes through R13, or the direct target for static/pointer): used to
state that this target is not RAM[0] itself. -/
def popTarget (fn : String) (seg : SegmentTypes) (i : Nat) (env : String → Nat)
    (st : Mach) : Nat :=
  match seg with
  | .constant => 0
  | .static => w (env (fn ++ "." ++ natStr i))
  | .local => w (i + st.ram 1)
  | .argument => w (i + st.ram 2)
  | .this => w (i + st.ram 3)
  | .that => w (i + st.ram 4)
  | .temp => w (i + 5)
  | .pointer => if i = 0 then 3 else 4

/-- Concrete machine fixtures used by the closed instances below: SP = 256,
all other RAM cells 0, an environment resolving every assembler variable to
address 100. -/
def vmFixRam : Nat → Nat := fun a => if a = 0 then 256 else 0

def vmFixSt : Mach := { a := 0, d := 0, ram := vmFixRam }

def vmFixEnv : String → Nat := fun _ => 100

/-- Fixture for the `return` block: LCL = 200 with the caller frame in
RAM[195..199] (return address 600 at LCL-5), SP = 300 with the return value
42 on top, ARG = 290; the assembler maps `endframe` to 16 and `retAddr`
to 17. -/
def c2Ram : Nat → Nat := fun a =>
  if a = 0 then 300 else if a = 1 then 200 else if a = 2 then 290
  else if a = 299 then 42 else if a = 195 then 600 else if a = 196 then 4444
  else if a = 197 then 3333 else if a = 198 then 2222 else if a = 199 then 1111
  else 0

def c2St : Mach := { a := 0, d := 0, ram := c2Ram }

def c2Env : String → Nat := fun s =>
  if s = "endframe" then 16 else if s = "retAddr" then 17 else 100

end VM

/-! ### Hack assembler: binary encoding stage (projects/06/assembler.py)

Fallible steps (Python's KeyError / IndexError / ValueError crashes) are
modelled with `Option`.
-/

namespace Assembler

/-- Python's `'M' in value` test. -/
def containsChar (s : String) (c : Char) : Bool := s.data.contains c

/-- Python's `value.split(ch)` for a single-character separator. -/
def splitOnCharGo (ch : Char) : List Char → List (List Char)
  | [] => [[]]
  | c :: cs =>
    if c = ch then [] :: splitOnCharGo ch cs
    else
      match splitOnCharGo ch cs with
      | [] => [[c]]
      | h :: t => (c :: h) :: t

def splitOnChar (ch : Char) (s : String) : List String :=
  (splitOnCharGo ch s.data).map String.mk

/-- Binary digit list of a natural number, most significant first
(fuel-driven so the kernel can evaluate it). -/
def natBinDigitsGo : Nat → Nat → List Char
  | 0, _ => []
  | fuel + 1, n =>
    if n < 2 then [digitChar n]
    else natBinDigitsGo fuel (n / 2) ++ [digitChar (n % 2)]

def natBinDigits (n : Nat) : List Char := natBinDigitsGo (n + 1) n

/-- Python's `'{0:016b}'.format(n)`: binary digits of `n`, zero-padded on
the left to a minimum width of 16. -/
def format016b (n : Nat) : String :=
  String.mk (List.replicate (16 - (natBinDigits n).length) '0' ++ natBinDigits n)

/-- convert_a_instruction: `int(value[1:])` then `'{0:016b}'.format(...)`;
`none` models the ValueError crash of `int()` on a non-digit string. -/
def convert_a_instruction (value : String) : Option String :=
  (parseNat (String.mk (value.data.drop 1))).map format016b

def comp_table : List (String × String) :=
  [("0", "101010"), ("1", "111111"), ("-1", "111010"),
   ("D", "001100"), ("A", "110000"), ("M", "110000"),
   ("!D", "001101"), ("!A", "110001"), ("!M", "110001"),
   ("-D", "001111"), ("-A", "110011"), ("-M", "110011"),
   ("D+1", "011111"), ("A+1", "110111"), ("M+1", "110111"),
   ("D-1", "001110"), ("A-1", "110010"), ("M-1", "110010"),
   ("D+A", "000010"), ("D+M", "000010"),
   ("D-A", "010011"), ("D-M", "010011"),
   ("A-D", "000111"), ("M-D", "000111"),
   ("D&A", "000000"), ("D&M", "000000"),
   ("D|A", "010101"), ("D|M", "010101")]

def comp_lookup (k : String) : Option String := comp_table.lookup k

def dest_table : List (String × String) :=
  [("null", "000"), ("M", "001"), ("D", "010"), ("DM", "011"), ("MD", "011"),
   ("A", "100"), ("AM", "101"), ("AD", "110"), ("ADM", "111")]

def dest_lookup (k : String) : Option String := dest_table.lookup k

def jump_table : List (String × String) :=
  [("null", "000"), ("JGT", "001"), ("JEQ", "010"), ("JGE", "011"),
   ("JLT", "100"), ("JNE", "101"), ("JLE", "110"), ("JMP", "111")]

def jump_lookup (k : String) : Option String := jump_table.lookup k

/-- get_a_bit: `"1"` iff `"M" in value` (the Python int 1/0 is interpolated
into the output f-string, hence a one-character string here). -/
def get_a_bit (value : String) : String :=
  if containsChar value 'M' then "1" else "0"

/-- convert_c_instruction.  The source normalises the instruction text
(`null=` prefix when `=` is absent — possible only when `;` is present —
and `;null` suffix when `;` is absent) and then takes the three groups of
`re.match(r'(.*)=(.*);(.*)')`.  On text whose fields contain no further
`=`/`;` (the only text reaching the lookups without a KeyError) the greedy
regex split is the unique split at `=` and `;`, written here with
`splitOnChar`; `none` models a crash or KeyError.  `convert_c_core` is the
regex-and-lookup part, applied to the normalised text. -/
def convert_c_core (v2 : String) : Option String :=
  match splitOnChar '=' v2 with
  | [dst, rest] =>
    match splitOnChar ';' rest with
    | [cmp, jmp] =>
      match dest_lookup dst, comp_lookup cmp, jump_lookup jmp with
      | some dest, some comp, some jump =>
          some ("111" ++ get_a_bit cmp ++ comp ++ dest ++ jump)
      | _, _, _ => none
    | _ => none
  | _ => none

def convert_c_instruction (value : String) : Option String :=
  match (if containsChar value '=' then some value
         else
           match splitOnChar ';' value with
           | p0 :: p1 :: _ => some ("null=" ++ p0 ++ ";" ++ p1)
           | _ => none) with
  | none => none
  | some v1 => convert_c_core (if containsChar v1 ';' then v1 else v1 ++ ";null")

def detect_c_instruction (value : String) : Bool :=
  containsChar value '=' || containsChar value ';'

/-- translate_to_binary: `@`-lines become A-instructions, lines containing
`=` or `;` become C-instructions, anything else is silently dropped. -/
def translate_to_binary : List String → Option (List String)
  | [] => some []
  | line :: rest =>
    if line.data.take 1 = ['@'] then
      match convert_a_instruction line with
      | none => none
      | some instr => (translate_to_binary rest).map (fun out => instr :: out)
    else if detect_c_instruction line then
      match convert_c_instruction line with
      | none => none
      | some instr => (translate_to_binary rest).map (fun out => instr :: out)
    else translate_to_binary rest

/-- A character is one of the ASCII characters 0 and 1. -/
def isBinChar (c : Char) : Bool := c == '0' || c == '1'

end Assembler

/-! ### Jack syntax analyser: compilation engine (projects/10/SyntaxAnalyser.py)

The recursive-descent parser is embedded rule by rule.  Python mutates a
shared token index and an ElementTree; here every rule maps the token
stream and an index to an `ROut`: the index after the consumed tokens, the
elements appended to the caller's element, and the raised exception if
any.  `ParseException` (caught by the combinators) and other exceptions
(IndexError on token access past the stream, modelled as `crash`, which no
combinator catches) are distinguished.  Mutual recursion carries explicit
fuel; the source recursion is bounded by the token stream, and every
theorem supplies ample fuel.
-/

namespace Jack

inductive TokenType where
  | keyword | symbol | identifier | intConst | stringConst
  deriving DecidableEq, Repr

/-- The serialisation tag of a token type (the Python enum values). -/
def TokenType.tag : TokenType → String
  | .keyword => "keyword"
  | .symbol => "symbol"
  | .identifier => "identifier"
  | .intConst => "intConstant"
  | .stringConst => "stringConstant"

structure Token where
  type : TokenType
  value : String
  deriving DecidableEq, Repr

/-- A node of the ElementTree parse tree: tag, optional text, children. -/
inductive XNode where
  | node (tag : String) (text : Option String) (children : List XNode)

/-- `parseErr` models ParseException (caught by the combinators); `crash`
models any other exception, which no combinator catches. -/
inductive PErr where
  | parseErr (msg : String)
  | crash (msg : String)
  deriving DecidableEq, Repr

/-- Outcome of one grammar rule started at token index `idx`: the index
after the consumed tokens, the child elements appended to the caller's
element (ET.SubElement mutates the parent tree, so elements appended
before a failure stay attached), and `none` on success or the raised
exception. -/
structure ROut where
  idx : Nat
  out : List XNode
  err : Option PErr

/-- A grammar rule: token stream and current index to outcome. -/
def Rule := List Token → Nat → ROut

/-- check_token against Python's `Token(type, value-or-None)` expectation:
ParseException on a type mismatch, then on a value mismatch when a value
is expected; consumes nothing.  Reading past the stream is an IndexError
crash. -/
def check_token (expected : TokenType × Option String) : Rule := fun ts i =>
  match ts[i]? with
  | none => ⟨i, [], some (.crash "token index out of range")⟩
  | some t =>
    if t.type ≠ expected.1 then ⟨i, [], some (.parseErr "Incorrect token type")⟩
    else
      match expected.2 with
      | some v =>
        if t.value ≠ v then ⟨i, [], some (.parseErr "Incorrect token value")⟩
        else ⟨i, [], none⟩
      | none => ⟨i, [], none⟩

/-- check_tokens: try check_token on each expectation, succeed as soon as
one passes, otherwise ParseException. -/
def check_tokens (expected : List (TokenType × Option String)) : Rule := fun ts i =>
  match ts[i]? with
  | none => ⟨i, [], some (.crash "token index out of range")⟩
  | some _ =>
    if expected.any (fun e => (check_token e ts i).err.isNone) then ⟨i, [], none⟩
    else ⟨i, [], some (.parseErr "Incorrect token")⟩

/-- Shared shape of compileIdentifier / compileSymbol / compileKeyword /
compileIntegerConstant / compileStringConstant: check_token, then append
one `<tag>text</tag>` element and advance. -/
def consumeToken (expected : TokenType × Option String) (tag : String) : Rule := fun ts i =>
  match (check_token expected ts i).err with
  | some e => ⟨i, [], some e⟩
  | none =>
    match ts[i]? with
    | none => ⟨i, [], some (.crash "token index out of range")⟩
    | some t => ⟨i + 1, [.node tag (some t.value) []], none⟩

def compileIdentifier : Rule := consumeToken (.identifier, none) TokenType.identifier.tag

def compileSymbol (symbol : String) : Rule :=
  consumeToken (.symbol, some symbol) TokenType.symbol.tag

def compileKeyword (keyword : String) : Rule :=
  consumeToken (.keyword, some keyword) TokenType.keyword.tag

def compileIntegerConstant (keyword : Option String) : Rule :=
  consumeToken (.intConst, keyword) TokenType.intConst.tag

def compileStringConstant (keyword : Option String) : Rule :=
  consumeToken (.stringConst, keyword) TokenType.stringConst.tag

/-- compileOptional: attempt the rule; a ParseException is caught and
ignored (children appended before the failure stay attached and the token
index stays where the failure left it); crashes propagate. -/
def compileOptional (f : Rule) : Rule := fun ts i =>
  let r := f ts i
  match r.err with
  | some (.parseErr _) => ⟨r.idx, r.out, none⟩
  | _ => r

/-- compileMultiple: repeat the rule until a ParseException, which is
caught and ends the loop; crashes propagate.  The fuel only bounds the
iteration count (the Python loop is unbounded). -/
def compileMultiple (fuel : Nat) (f : Rule) : Rule := fun ts i =>
  match fuel with
  | 0 => ⟨i, [], some (.crash "fuel exhausted")⟩
  | fuel + 1 =>
    let r := f ts i
    match r.err with
    | some (.parseErr _) => ⟨r.idx, r.out, none⟩
    | some e => ⟨r.idx, r.out, some e⟩
    | none =>
      let r2 := compileMultiple fuel f ts r.idx
      ⟨r2.idx, r.out ++ r2.out, r2.err⟩

/-- compileOr: try the alternatives in order; a ParseException from an
alternative — wherever inside the alternative it was raised — is caught
and the next alternative is tried, with the failed alternative's partial
output kept and the token index left where the failure put it; when no
alternative succeeds, raise. -/
def compileOr : List Rule → List Token → Nat → ROut
  | [], _, i => ⟨i, [], some (.parseErr "Could not find func in compileOr")⟩
  | f :: fs, ts, i =>
    let r := f ts i
    match r.err with
    | none => ⟨r.idx, r.out, none⟩
    | some (.parseErr _) =>
      let r2 := compileOr fs ts r.idx
      ⟨r2.idx, r.out ++ r2.out, r2.err⟩
    | some e => ⟨r.idx, r.out, some e⟩

/-- Sequencing of statements inside one rule body: the continuation runs
only on success; children appended before an exception stay attached. -/
def rseq (r : ROut) (f : Nat → ROut) : ROut :=
  match r.err with
  | some _ => r
  | none =>
    let r2 := f r.idx
    ⟨r2.idx, r.out ++ r2.out, r2.err⟩

/-- `element = ET.SubElement(element, tag)` at the top of a rule body: the
body's output becomes the children of a single labelled element, which is
attached to the caller even when the body fails. -/
def wrapNode (tag : String) (r : ROut) : ROut :=
  ⟨r.idx, [.node tag none r.out], r.err⟩

def opExpected : List (TokenType × Option String) :=
  [(.symbol, some "+"), (.symbol, some "-"), (.symbol, some "*"), (.symbol, some "/"),
   (.symbol, some "&"), (.symbol, some "|"), (.symbol, some "<"), (.symbol, some ">"),
   (.symbol, some "=")]

/-- compileOp: check_tokens over the nine operators, then append the
symbol element and advance. -/
def compileOp : Rule := fun ts i =>
  rseq (check_tokens opExpected ts i) (fun j =>
    match ts[j]? with
    | none => ⟨j, [], some (.crash "token index out of range")⟩
    | some t => ⟨j + 1, [.node TokenType.symbol.tag (some t.value) []], none⟩)

/-- compileUnaryOp: `-` or `~`. -/
def compileUnaryOp : Rule := fun ts i =>
  rseq (check_tokens [(.symbol, some "-"), (.symbol, some "~")] ts i) (fun j =>
    match ts[j]? with
    | none => ⟨j, [], some (.crash "token index out of range")⟩
    | some t => ⟨j + 1, [.node TokenType.symbol.tag (some t.value) []], none⟩)

/-- compileKeywordConstant: true | false | null | this. -/
def compileKeywordConstant : Rule := fun ts i =>
  rseq (check_tokens [(.keyword, some "true"), (.keyword, some "false"),
      (.keyword, some "null"), (.keyword, some "this")] ts i) (fun j =>
    rseq (check_token (.keyword, none) ts j) (fun k =>
      match ts[k]? with
      | none => ⟨k, [], some (.crash "token index out of range")⟩
      | some t => ⟨k + 1, [.node TokenType.keyword.tag (some t.value) []], none⟩))

def compileClassName : Rule := compileIdentifier

def compileSubroutineName : Rule := compileIdentifier

def compileVarName : Rule := compileIdentifier

mutual

/-- compileExpression: `term (op term)?` — the source attempts the op-term
continuation only once, through compileOptional. -/
def compileExpression : Nat → List Token → Nat → ROut
  | 0, _, i => ⟨i, [], some (.crash "fuel exhausted")⟩
  | fuel + 1, ts, i =>
    wrapNode "expression"
      (rseq (compileTerm fuel ts i) (fun j =>
        compileOptional (compileOpTerm fuel) ts j))
  termination_by structural fuel _ _ => fuel

/-- compileTerm: a `term` element is attached first; one token of
lookahead selects array access, otherwise compileOr tries subroutine call,
the constants, variable, bracketed expression and unary term. -/
def compileTerm : Nat → List Token → Nat → ROut
  | 0, _, i => ⟨i, [], some (.crash "fuel exhausted")⟩
  | fuel + 1, ts, i =>
    wrapNode "term"
      (match ts[i + 1]? with
       | none => ⟨i, [], some (.crash "next_token out of range")⟩
       | some nt =>
         if nt.value = "[" then compileVarNameWithBoxedExpression fuel ts i
         else
           compileOr [compileSubroutineCall fuel, compileIntegerConstant none,
             compileStringConstant none, compileKeywordConstant, compileVarName,
             compileBracketedExpression fuel, unaryOpTerm fuel] ts i)
  termination_by structural fuel _ _ => fuel

def unaryOpTerm : Nat → List Token → Nat → ROut
  | 0, _, i => ⟨i, [], some (.crash "fuel exhausted")⟩
  | fuel + 1, ts, i =>
    rseq (compileUnaryOp ts i) (fun j => compileTerm fuel ts j)
  termination_by structural fuel _ _ => fuel

/-- compileOpTerm: `(op term)`. -/
def compileOpTerm : Nat → List Token → Nat → ROut
  | 0, _, i => ⟨i, [], some (.crash "fuel exhausted")⟩
  | fuel + 1, ts, i =>
    rseq (compileOp ts i) (fun j => compileTerm fuel ts j)
  termination_by structural fuel _ _ => fuel

/-- compileVarNameWithBoxedExpression: `varName '[' expression ']'`. -/
def compileVarNameWithBoxedExpression : Nat → List Token → Nat → ROut
  | 0, _, i => ⟨i, [], some (.crash "fuel exhausted")⟩
  | fuel + 1, ts, i =>
    rseq (compileIdentifier ts i) (fun j =>
      rseq (compileSymbol "[" ts j) (fun k =>
        rseq (compileExpression fuel ts k) (fun l =>
          compileSymbol "]" ts l)))
  termination_by structural fuel _ _ => fuel

/-- compileBracketedExpression: `'(' expression ')'`. -/
def compileBracketedExpression : Nat → List Token → Nat → ROut
  | 0, _, i => ⟨i, [], some (.crash "fuel exhausted")⟩
  | fuel + 1, ts, i =>
    rseq (compileSymbol "(" ts i) (fun j =>
      rseq (compileExpression fuel ts j) (fun k =>
        compileSymbol ")" ts k))
  termination_by structural fuel _ _ => fuel

/-- compileSubroutineCall: alternation of the dotted and the dotless
call forms. -/
def compileSubroutineCall : Nat → List Token → Nat → ROut
  | 0, _, i => ⟨i, [], some (.crash "fuel exhausted")⟩
  | fuel + 1, ts, i =>
    compileOr [compileExpressionListSubroutineCall fuel,
      compileExpressionListCall fuel] ts i
  termination_by structural fuel _ _ => fuel

/-- compileExpressionListSubroutineCall:
`(className|varName) '.' subroutineName '(' expressionList ')'`, guarded
by one token of lookahead for the dot. -/
def compileExpressionListSubroutineCall : Nat → List Token → Nat → ROut
  | 0, _, i => ⟨i, [], some (.crash "fuel exhausted")⟩
  | fuel + 1, ts, i =>
    match ts[i + 1]? with
    | none => ⟨i, [], some (.crash "next_token out of range")⟩
    | some nt =>
      if nt.type ≠ .symbol ∨ nt.value ≠ "." then
        ⟨i, [], some (.parseErr "object.subroutine() was not detected")⟩
      else
        rseq (compileOr [compileClassName, compileVarName] ts i) (fun j =>
          rseq (compileSymbol "." ts j) (fun k =>
            rseq (compileSubroutineName ts k) (fun l =>
              rseq (compileSymbol "(" ts l) (fun m =>
                rseq (compileExpressionList fuel ts m) (fun n =>
                  compileSymbol ")" ts n)))))
  termination_by structural fuel _ _ => fuel

/-- compileExpressionListCall — the dotless form
`subroutineName '(' expressionList ')'`; its body starts with
`check_token(Token(SYMBOL, "("))` against the *current* token. -/
def compileExpressionListCall : Nat → List Token → Nat → ROut
  | 0, _, i => ⟨i, [], some (.crash "fuel exhausted")⟩
  | fuel + 1, ts, i =>
    rseq (check_token (.symbol, some "(") ts i) (fun j =>
      rseq (compileSubroutineName ts j) (fun k =>
        rseq (compileSymbol "(" ts k) (fun l =>
          rseq (compileExpressionList fuel ts l) (fun m =>
            compileSymbol ")" ts m))))
  termination_by structural fuel _ _ => fuel

/-- compileExpressionList: `(expression (',' expression)*)?`. -/
def compileExpressionList : Nat → List Token → Nat → ROut
  | 0, _, i => ⟨i, [], some (.crash "fuel exhausted")⟩
  | fuel + 1, ts, i => compileOptional (compileExpressionListBase fuel) ts i
  termination_by structural fuel _ _ => fuel

def compileExpressionListBase : Nat → List Token → Nat → ROut
  | 0, _, i => ⟨i, [], some (.crash "fuel exhausted")⟩
  | fuel + 1, ts, i =>
    rseq (compileExpression fuel ts i) (fun j =>
      compileMultiple fuel (compileExpressionMultiple fuel) ts j)
  termination_by structural fuel _ _ => fuel

def compileExpressionMultiple : Nat → List Token → Nat → ROut
  | 0, _, i => ⟨i, [], some (.crash "fuel exhausted")⟩
  | fuel + 1, ts, i =>
    rseq (compileSymbol "," ts i) (fun j => compileExpression fuel ts j)
  termination_by structural fuel _ _ => fuel
end

/-- compileDo: `'do' subroutineCall ';'` (the doStatement element is
created only after the first check passes). -/
def compileDo (fuel : Nat) : Rule := fun ts i =>
  match (check_token (.keyword, some "do") ts i).err with
  | some e => ⟨i, [], some e⟩
  | none =>
    wrapNode "doStatement"
      (rseq (compileKeyword "do" ts i) (fun j =>
        rseq (compileSubroutineCall fuel ts j) (fun k =>
          compileSymbol ";" ts k)))

/-! Concrete token streams used to evaluate the engine. -/

/-- `a + b + c ;` -/
def tsExprABC : List Token :=
  [⟨.identifier, "a"⟩, ⟨.symbol, "+"⟩, ⟨.identifier, "b"⟩,
   ⟨.symbol, "+"⟩, ⟨.identifier, "c"⟩, ⟨.symbol, ";"⟩]

/-- `g ( ) ;` — a dotless subroutine call. -/
def tsCallDotless : List Token :=
  [⟨.identifier, "g"⟩, ⟨.symbol, "("⟩, ⟨.symbol, ")"⟩, ⟨.symbol, ";"⟩]

/-- `do g ( ) ;` -/
def tsDoDotless : List Token :=
  [⟨.keyword, "do"⟩, ⟨.identifier, "g"⟩, ⟨.symbol, "("⟩, ⟨.symbol, ")"⟩, ⟨.symbol, ";"⟩]

/-- `do obj . m ( ) ;` -/
def tsDoDotted : List Token :=
  [⟨.keyword, "do"⟩, ⟨.identifier, "obj"⟩, ⟨.symbol, "."⟩, ⟨.identifier, "m"⟩,
   ⟨.symbol, "("⟩, ⟨.symbol, ")"⟩, ⟨.symbol, ";"⟩]

/-- `( x ]` — a bracketed expression failing at its third token. -/
def tsParenX : List Token :=
  [⟨.symbol, "("⟩, ⟨.identifier, "x"⟩, ⟨.symbol, "]"⟩]

end Jack

/-! ## Theorems -/

namespace StrAux

theorem digitChar_isDigit {d : Nat} (h : d < 10) : isDigitChar (digitChar d) = true := by
  interval_cases d <;> decide

theorem natDigitsGo_fuel {fuel1 fuel2 n : Nat} (h1 : n < fuel1) (h2 : n < fuel2) :
    natDigitsGo fuel1 n = natDigitsGo fuel2 n := by
  induction fuel1 generalizing fuel2 n with
  | zero => omega
  | succ fuel1 ih =>
    cases fuel2 with
    | zero => omega
    | succ fuel2 =>
      by_cases h : n < 10
      · simp [natDigitsGo, h]
      · have hd : n / 10 < n := Nat.div_lt_self (by omega) (by omega)
        simp only [natDigitsGo, if_neg h]
        rw [ih (show n / 10 < fuel1 by omega) (show n / 10 < fuel2 by omega)]

theorem natDigits_lt10 {n : Nat} (h : n < 10) : natDigits n = [digitChar n] := by
  simp [natDigits, natDigitsGo, h]

theorem natDigits_ge10 {n : Nat} (h : 10 ≤ n) :
    natDigits n = natDigits (n / 10) ++ [digitChar (n % 10)] := by
  have hd : n / 10 < n := Nat.div_lt_self (by omega) (by omega)
  have h1 : natDigits n = natDigitsGo n (n / 10) ++ [digitChar (n % 10)] := by
    simp only [natDigits, natDigitsGo, if_neg (by omega : ¬ n < 10)]
  rw [h1, natDigitsGo_fuel (show n / 10 < n by omega) (Nat.lt_succ_self _)]
  rfl

theorem natDigits_ne_nil (n : Nat) : natDigits n ≠ [] := by
  by_cases h : n < 10
  · simp [natDigits_lt10 h]
  · simp [natDigits_ge10 (show 10 ≤ n by omega)]

theorem natDigits_all_digits (n : Nat) : ∀ c ∈ natDigits n, isDigitChar c = true := by
  induction n using Nat.strong_induction_on with
  | _ n ih =>
    by_cases h : n < 10
    · rw [natDigits_lt10 h]
      intro c hc
      simp at hc
      subst hc
      exact digitChar_isDigit h
    · rw [natDigits_ge10 (by omega)]
      intro c hc
      simp at hc
      rcases hc with hc | hc
      · exact ih (n / 10) (Nat.div_lt_self (by omega) (by omega)) c hc
      · subst hc
        exact digitChar_isDigit (Nat.mod_lt _ (by omega))

theorem digitsVal_append_one (l : List Char) (c : Char) :
    digitsVal (l ++ [c]) = digitsVal l * 10 + (c.toNat - 48) := by
  simp [digitsVal, List.foldl_append]

theorem digitChar_toNat {d : Nat} (h : d < 10) : (digitChar d).toNat = 48 + d := by
  interval_cases d <;> decide

theorem digitsVal_natDigits (n : Nat) : digitsVal (natDigits n) = n := by
  induction n using Nat.strong_induction_on with
  | _ n ih =>
    by_cases h : n < 10
    · rw [natDigits_lt10 h]
      simp [digitsVal, List.foldl, digitChar_toNat h]
    · rw [natDigits_ge10 (by omega), digitsVal_append_one,
        ih (n / 10) (Nat.div_lt_self (by omega) (by omega)),
        digitChar_toNat (Nat.mod_lt _ (by omega))]
      omega

theorem natDigits_injective {a b : Nat} (h : natDigits a = natDigits b) : a = b := by
  have ha := digitsVal_natDigits a
  have hb := digitsVal_natDigits b
  rw [h] at ha
  omega

theorem natStr_injective {a b : Nat} (h : natStr a = natStr b) : a = b := by
  apply natDigits_injective
  have := congrArg String.data h
  simpa [natStr] using this

/-- If `p1` and `p2` both end with a non-digit and `d1`, `d2` are all
digits, then the decomposition `p ++ d` of a character list into such
halves is unique. -/
theorem append_digits_unique {p1 p2 d1 d2 : List Char}
    (hd1 : ∀ c ∈ d1, isDigitChar c = true) (hd2 : ∀ c ∈ d2, isDigitChar c = true)
    (hp1 : ∃ c l, p1 = l ++ [c] ∧ isDigitChar c = false)
    (hp2 : ∃ c l, p2 = l ++ [c] ∧ isDigitChar c = false)
    (h : p1 ++ d1 = p2 ++ d2) : p1 = p2 ∧ d1 = d2 := by
  obtain ⟨c1, l1, rfl, hc1⟩ := hp1
  obtain ⟨c2, l2, rfl, hc2⟩ := hp2
  have hrev := congrArg List.reverse h
  simp at hrev
  have htw := congrArg (List.takeWhile isDigitChar) hrev
  have e1 : List.takeWhile isDigitChar (d1.reverse ++ (c1 :: l1.reverse)) = d1.reverse := by
    rw [List.takeWhile_append]
    have : List.takeWhile isDigitChar d1.reverse = d1.reverse := by
      apply List.takeWhile_eq_self_iff.mpr
      intro c hc
      exact hd1 c (List.mem_reverse.mp hc)
    simp [this, List.takeWhile_cons, hc1]
  have e2 : List.takeWhile isDigitChar (d2.reverse ++ (c2 :: l2.reverse)) = d2.reverse := by
    rw [List.takeWhile_append]
    have : List.takeWhile isDigitChar d2.reverse = d2.reverse := by
      apply List.takeWhile_eq_self_iff.mpr
      intro c hc
      exact hd2 c (List.mem_reverse.mp hc)
    simp [this, List.takeWhile_cons, hc2]
  rw [e1, e2] at htw
  have hd : d1 = d2 := by
    have := congrArg List.reverse htw
    simpa using this
  subst hd
  constructor
  · exact List.append_cancel_right h
  · rfl

theorem parseNatGo_all_digits (l : List Char) (acc : Nat)
    (h : ∀ c ∈ l, isDigitChar c = true) :
    parseNatGo acc l = some (l.foldl (fun a c => a * 10 + (c.toNat - 48)) acc) := by
  induction l generalizing acc with
  | nil => simp [parseNatGo]
  | cons c cs ih =>
    have hc := h c (by simp)
    simp only [parseNatGo, hc, if_true, List.foldl_cons]
    exact ih _ (fun x hx => h x (by simp [hx]))

theorem parseNatGo_none_of_nondigit {l : List Char} {acc : Nat} {c : Char}
    (hc : c ∈ l) (hnd : isDigitChar c = false) : parseNatGo acc l = none := by
  induction l generalizing acc with
  | nil => simp at hc
  | cons x xs ih =>
    rcases List.mem_cons.mp hc with h | h
    · subst h
      simp [parseNatGo, hnd]
    · by_cases hx : isDigitChar x
      · simp [parseNatGo, hx, ih h]
      · simp [parseNatGo, hx]

theorem parseNat_natStr (n : Nat) : parseNat (natStr n) = some n := by
  have hne := natDigits_ne_nil n
  have : parseNatGo 0 (natDigits n) = some (digitsVal (natDigits n)) :=
    parseNatGo_all_digits _ 0 (natDigits_all_digits n)
  rw [digitsVal_natDigits] at this
  unfold parseNat natStr
  cases hd : natDigits n with
  | nil => exact absurd hd hne
  | cons c cs => rw [← hd]; simpa [hd] using this

end StrAux

namespace Assembler

theorem lookup_mem {k v : String} :
    ∀ {l : List (String × String)}, l.lookup k = some v → (k, v) ∈ l := by
  intro l
  induction l with
  | nil => intro h; simp [List.lookup] at h
  | cons a t ih =>
    intro h
    obtain ⟨x, y⟩ := a
    rw [List.lookup] at h
    cases hk : (k == x)
    · rw [hk] at h
      exact List.mem_cons_of_mem _ (ih h)
    · rw [hk] at h
      simp at h
      have hkx : k = x := by simpa using hk
      simp [hkx, h]

theorem splitOnCharGo_not_mem {ch : Char} : ∀ {l : List Char}, ch ∉ l →
    splitOnCharGo ch l = [l] := by
  intro l
  induction l with
  | nil => intro _; rfl
  | cons c cs ih =>
    intro h
    have hc : ¬ c = ch := fun he => h (by simp [he])
    have hcs : ch ∉ cs := fun hm => h (by simp [hm])
    simp [splitOnCharGo, hc, ih hcs]

theorem splitOnCharGo_append {ch : Char} {l2 : List Char} : ∀ {l1 : List Char}, ch ∉ l1 →
    splitOnCharGo ch (l1 ++ ch :: l2) = l1 :: splitOnCharGo ch l2 := by
  intro l1
  induction l1 with
  | nil => intro _; simp [splitOnCharGo]
  | cons c cs ih =>
    intro h
    have hc : ¬ c = ch := fun he => h (by simp [he])
    have hcs : ch ∉ cs := fun hm => h (by simp [hm])
    have hne : splitOnCharGo ch (cs ++ ch :: l2) = cs :: splitOnCharGo ch l2 := ih hcs
    simp [splitOnCharGo, hc, hne]

theorem natBinDigitsGo_fuel {fuel1 fuel2 n : Nat} (h1 : n < fuel1) (h2 : n < fuel2) :
    natBinDigitsGo fuel1 n = natBinDigitsGo fuel2 n := by
  induction fuel1 generalizing fuel2 n with
  | zero => omega
  | succ fuel1 ih =>
    cases fuel2 with
    | zero => omega
    | succ fuel2 =>
      by_cases h : n < 2
      · simp [natBinDigitsGo, h]
      · have hd : n / 2 < n := Nat.div_lt_self (by omega) (by omega)
        simp only [natBinDigitsGo, if_neg h]
        rw [ih (show n / 2 < fuel1 by omega) (show n / 2 < fuel2 by omega)]

theorem natBinDigits_lt2 {n : Nat} (h : n < 2) : natBinDigits n = [digitChar n] := by
  simp [natBinDigits, natBinDigitsGo, h]

theorem natBinDigits_ge2 {n : Nat} (h : 2 ≤ n) :
    natBinDigits n = natBinDigits (n / 2) ++ [digitChar (n % 2)] := by
  have hd : n / 2 < n := Nat.div_lt_self (by omega) (by omega)
  have h1 : natBinDigits n = natBinDigitsGo n (n / 2) ++ [digitChar (n % 2)] := by
    simp only [natBinDigits, natBinDigitsGo, if_neg (by omega : ¬ n < 2)]
  rw [h1, natBinDigitsGo_fuel (show n / 2 < n by omega) (Nat.lt_succ_self _)]
  rfl

theorem natBinDigits_length_le : ∀ k : Nat, 1 ≤ k → ∀ n : Nat, n < 2 ^ k →
    (natBinDigits n).length ≤ k := by
  intro k
  induction k with
  | zero => omega
  | succ k ih =>
    intro _ n hn
    by_cases h : n < 2
    · simp [natBinDigits_lt2 h]
    · have hk : 1 ≤ k := by
        by_contra hk
        have : k = 0 := by omega
        subst this
        simp at hn
        omega
      have hdiv : n / 2 < 2 ^ k := by
        have : n < 2 ^ k * 2 := by
          have := hn
          rw [pow_succ] at this
          omega
        omega
      have := ih hk (n / 2) hdiv
      rw [natBinDigits_ge2 (by omega)]
      simp
      omega

theorem natBinDigits_all_bin (n : Nat) : ∀ c ∈ natBinDigits n, isBinChar c = true := by
  induction n using Nat.strong_induction_on with
  | _ n ih =>
    by_cases h : n < 2
    · rw [natBinDigits_lt2 h]
      intro c hc
      simp at hc
      subst hc
      interval_cases n <;> decide
    · rw [natBinDigits_ge2 (by omega)]
      intro c hc
      simp at hc
      rcases hc with hc | hc
      · exact ih (n / 2) (Nat.div_lt_self (by omega) (by omega)) c hc
      · subst hc
        have : n % 2 < 2 := Nat.mod_lt _ (by omega)
        interval_cases hm : (n % 2) <;> decide

theorem format016b_spec {n : Nat} (h : n < 65536) :
    (format016b n).length = 16 ∧ ∀ c ∈ (format016b n).data, isBinChar c = true := by
  have hlen : (natBinDigits n).length ≤ 16 :=
    natBinDigits_length_le 16 (by omega) n (by norm_num; omega)
  constructor
  · show (String.mk _).length = 16
    simp [String.length, format016b]
    omega
  · intro c hc
    simp [format016b] at hc
    rcases hc with hc | hc
    · rw [hc.2]; decide
    · exact natBinDigits_all_bin n c hc

theorem containsChar_iff {s : String} {c : Char} : containsChar s c = true ↔ c ∈ s.data := by
  simp [containsChar, List.contains, List.elem_iff]

theorem not_mem_of_not_containsChar {s : String} {c : Char}
    (h : containsChar s c = false) : c ∉ s.data := by
  intro hm
  rw [containsChar_iff.mpr hm] at h
  cases h

theorem comp_entry_facts : ∀ p ∈ comp_table, p.2.length = 6 ∧
    containsChar p.1 '=' = false ∧ containsChar p.1 ';' = false ∧
    ∀ c ∈ p.2.data, isBinChar c = true := by decide

theorem dest_entry_facts : ∀ p ∈ dest_table, p.2.length = 3 ∧
    containsChar p.1 '=' = false ∧ containsChar p.1 ';' = false ∧
    ∀ c ∈ p.2.data, isBinChar c = true := by decide

theorem jump_entry_facts : ∀ p ∈ jump_table, p.2.length = 3 ∧
    containsChar p.1 '=' = false ∧ containsChar p.1 ';' = false ∧
    ∀ c ∈ p.2.data, isBinChar c = true := by decide

/-- On a fully spelled C-instruction `dest=comp;jump` whose three fields are
table keys, convert_c_instruction produces exactly `111`, the a-bit (1 iff
the comp mnemonic contains M), then the comp, dest and jump codes. -/
theorem convert_c_complete {d c j dc cc jc : String}
    (hd : dest_lookup d = some dc) (hc : comp_lookup c = some cc)
    (hj : jump_lookup j = some jc) :
    convert_c_instruction (d ++ "=" ++ c ++ ";" ++ j) =
      some ("111" ++ (if containsChar c 'M' then "1" else "0") ++ cc ++ dc ++ jc) := by
  have hdf := dest_entry_facts _ (lookup_mem hd)
  have hcf := comp_entry_facts _ (lookup_mem hc)
  have hjf := jump_entry_facts _ (lookup_mem hj)
  have hdeq : '=' ∉ d.data := not_mem_of_not_containsChar hdf.2.1
  have hceq : '=' ∉ c.data := not_mem_of_not_containsChar hcf.2.1
  have hjeq : '=' ∉ j.data := not_mem_of_not_containsChar hjf.2.1
  have hcsc : ';' ∉ c.data := not_mem_of_not_containsChar hcf.2.2.1
  have hjsc : ';' ∉ j.data := not_mem_of_not_containsChar hjf.2.2.1
  have hv : (d ++ "=" ++ c ++ ";" ++ j).data = d.data ++ '=' :: (c.data ++ ';' :: j.data) := by
    simp [String.data_append]
  have h1 : containsChar (d ++ "=" ++ c ++ ";" ++ j) '=' = true :=
    containsChar_iff.mpr (by rw [hv]; simp)
  have h2 : containsChar (d ++ "=" ++ c ++ ";" ++ j) ';' = true :=
    containsChar_iff.mpr (by rw [hv]; simp)
  have hs1 : splitOnChar '=' (d ++ "=" ++ c ++ ";" ++ j) =
      [d, String.mk (c.data ++ ';' :: j.data)] := by
    unfold splitOnChar
    rw [hv, splitOnCharGo_append hdeq, splitOnCharGo_not_mem (by simp [hceq, hjeq])]
    rfl
  have hs2 : splitOnChar ';' (String.mk (c.data ++ ';' :: j.data)) = [c, j] := by
    unfold splitOnChar
    show (splitOnCharGo ';' (c.data ++ ';' :: j.data)).map String.mk = _
    rw [splitOnCharGo_append hcsc, splitOnCharGo_not_mem hjsc]
    rfl
  have hcore : convert_c_core (d ++ "=" ++ c ++ ";" ++ j) =
      some ("111" ++ (if containsChar c 'M' then "1" else "0") ++ cc ++ dc ++ jc) := by
    unfold convert_c_core
    rw [hs1]
    simp only
    rw [hs2]
    simp only [hd, hc, hj]
    rfl
  unfold convert_c_instruction
  rw [h1]
  simp only [if_true]
  rw [h2]
  simp only [if_true]
  exact hcore

/-- Every successful run of the lookup core yields a 16-character line of
0/1 characters (3 + 1 + 6 + 3 + 3). -/
theorem convert_c_core_len {v b : String} (h : convert_c_core v = some b) :
    b.length = 16 ∧ ∀ ch ∈ b.data, isBinChar ch = true := by
  unfold convert_c_core at h
  split at h
  · next dst rest heq1 =>
    split at h
    · next cmp jmp heq2 =>
      split at h
      · rename_i dest comp jump hd hc hj
        have hdl : dest.length = 3 := (dest_entry_facts _ (lookup_mem hd)).1
        have hcl : comp.length = 6 := (comp_entry_facts _ (lookup_mem hc)).1
        have hjl : jump.length = 3 := (jump_entry_facts _ (lookup_mem hj)).1
        have hdb : ∀ ch ∈ dest.data, isBinChar ch = true :=
          (dest_entry_facts _ (lookup_mem hd)).2.2.2
        have hcb : ∀ ch ∈ comp.data, isBinChar ch = true :=
          (comp_entry_facts _ (lookup_mem hc)).2.2.2
        have hjb : ∀ ch ∈ jump.data, isBinChar ch = true :=
          (jump_entry_facts _ (lookup_mem hj)).2.2.2
        cases h
        have hab : get_a_bit cmp = "1" ∨ get_a_bit cmp = "0" := by
          unfold get_a_bit
          split
          · exact Or.inl rfl
          · exact Or.inr rfl
        constructor
        · simp only [String.length_append]
          have h1 : (get_a_bit cmp).length = 1 := by
            rcases hab with hab | hab <;> rw [hab] <;> rfl
          rw [h1, hdl, hcl, hjl]
          decide
        · intro ch hch
          simp only [String.data_append, List.mem_append] at hch
          rcases hch with ((((hch | hch) | hch) | hch) | hch)
          · have : ch = '1' := by simpa using hch
            rw [this]
            decide
          · rcases hab with hab | hab <;> rw [hab] at hch
            · have : ch = '1' := by simpa using hch
              rw [this]
              decide
            · have : ch = '0' := by simpa using hch
              rw [this]
              decide
          · exact hcb ch hch
          · exact hdb ch hch
          · exact hjb ch hch
      · cases h
    · cases h
  · cases h

theorem convert_c_len {v b : String} (h : convert_c_instruction v = some b) :
    b.length = 16 ∧ ∀ ch ∈ b.data, isBinChar ch = true := by
  unfold convert_c_instruction at h
  split at h
  · cases h
  · exact convert_c_core_len h

theorem translate_to_binary_cons (line : String) (rest : List String) :
    translate_to_binary (line :: rest) =
      if line.data.take 1 = ['@'] then
        match convert_a_instruction line with
        | none => none
        | some instr => (translate_to_binary rest).map (fun out => instr :: out)
      else if detect_c_instruction line then
        match convert_c_instruction line with
        | none => none
        | some instr => (translate_to_binary rest).map (fun out => instr :: out)
      else translate_to_binary rest := rfl

theorem convert_a_natStr {n : Nat} :
    convert_a_instruction ("@" ++ natStr n) = some (format016b n) := by
  have hdata : ("@" ++ natStr n).data = '@' :: natDigits n := by
    simp [String.data_append, natStr]
  unfold convert_a_instruction
  rw [hdata]
  simp only [List.drop_succ_cons, List.drop_zero]
  show (parseNat (natStr n)).map format016b = _
  rw [parseNat_natStr]
  rfl

end Assembler

namespace VM

theorem translateCounters_get (cmds : List VMCommand) (c0 k : Nat) :
    (translateCounters cmds c0)[k]? = (cmds[k]?).map (fun cmd => (cmd, c0 + k + 1)) := by
  induction cmds generalizing c0 k with
  | nil => simp [translateCounters]
  | cons cmd rest ih =>
    cases k with
    | zero => simp [translateCounters]
    | succ k =>
      simp only [translateCounters, List.getElem?_cons_succ, ih (c0 + 1) k]
      cases rest[k]?
      · simp
      · simp
        omega

/-- Every minted label is a prefix ending in "." followed by the decimal
counter. -/
theorem mintedLabels_shape {cmd : VMCommand} {c : Nat} {L : String}
    (h : L ∈ mintedLabels cmd c) :
    ∃ p : List Char, (∃ e l, p = l ++ [e] ∧ isDigitChar e = false) ∧
      L.data = p ++ natDigits c := by
  cases cmd with
  | arithmetic op =>
    by_cases hop : op = .eq ∨ op = .gt ∨ op = .lt
    · simp [mintedLabels, hop] at h
      rcases h with h | h
      · refine ⟨"COND_JUMP.".data, ⟨'.', "COND_JUMP".data, by decide, by decide⟩, ?_⟩
        subst h
        simp [jumpLabel, natStr]
      · refine ⟨"COND_JUMP_END.".data, ⟨'.', "COND_JUMP_END".data, by decide, by decide⟩, ?_⟩
        subst h
        simp [endLabel, natStr]
    · simp [mintedLabels, hop] at h
  | callCmd f n =>
    simp [mintedLabels] at h
    refine ⟨f.data ++ ".RETURN.".data, ⟨'.', f.data ++ ".RETURN".data, ?_, by decide⟩, ?_⟩
    · simp
    · subst h
      simp [returnAddrLabel, natStr]
  | push seg i => simp [mintedLabels] at h
  | pop seg i => simp [mintedLabels] at h
  | labelCmd s => simp [mintedLabels] at h
  | gotoCmd s => simp [mintedLabels] at h
  | ifGotoCmd s => simp [mintedLabels] at h
  | functionCmd s n => simp [mintedLabels] at h
  | returnCmd => simp [mintedLabels] at h

/-- A label minted with counter `c1` never equals a label minted with
counter `c2 ≠ c1`, whichever commands minted them. -/
theorem mintedLabels_counter_ne {cmd1 cmd2 : VMCommand} {c1 c2 : Nat} {L : String}
    (h1 : L ∈ mintedLabels cmd1 c1) (h2 : L ∈ mintedLabels cmd2 c2) : c1 = c2 := by
  obtain ⟨p1, hp1, hL1⟩ := mintedLabels_shape h1
  obtain ⟨p2, hp2, hL2⟩ := mintedLabels_shape h2
  have h := hL1.symm.trans hL2
  have := append_digits_unique (natDigits_all_digits c1) (natDigits_all_digits c2) hp1 hp2 h
  exact natDigits_injective this.2

theorem hasMoreLines_false_iff (lines : List String) (i : Nat) :
    hasMoreLines lines i = false ↔ lines.length - 1 ≤ i := by
  unfold hasMoreLines
  split
  · simp_all
  · simp_all

/-! Machine-semantics infrastructure. -/

theorem at_data (s : String) : ("@" ++ s).data = '@' :: s.data := by
  simp [String.data_append]

theorem paren_data (s : String) : ("(" ++ s ++ ")").data = '(' :: (s.data ++ [')']) := by
  simp [String.data_append]

theorem mk_data (s : String) : String.mk s.data = s := rfl

theorem lookup_eq_none_of_ne {k : String} :
    ∀ {l : List (String × Nat)}, (∀ p ∈ l, k ≠ p.1) → l.lookup k = none := by
  intro l
  induction l with
  | nil => intro _; rfl
  | cons p t ih =>
    intro h
    obtain ⟨x, y⟩ := p
    have hk : k ≠ x := h (x, y) (by simp)
    simp only [List.lookup]
    rw [beq_eq_false_iff_ne.mpr hk]
    exact ih (fun q hq => h q (by simp [hq]))

theorem natStr_ne_of_nondigit {n : Nat} {s : String} {c : Char}
    (hc : c ∈ s.data) (hnd : isDigitChar c = false) : natStr n ≠ s := by
  intro he
  rw [← he] at hc
  have hdig := natDigits_all_digits n c (by simpa [natStr] using hc)
  rw [hdig] at hnd
  cases hnd

theorem natStr_ne_of_any_nondigit {n : Nat} {s : String}
    (h : s.data.any (fun c => ! isDigitChar c) = true) : natStr n ≠ s := by
  obtain ⟨c, hc, hnd⟩ := List.any_eq_true.mp h
  exact natStr_ne_of_nondigit hc (by simpa using hnd)

theorem predef_lookup_natStr (n : Nat) : predefSyms.lookup (natStr n) = none := by
  apply lookup_eq_none_of_ne
  intro p hp
  simp [predefSyms] at hp
  rcases hp with h | h | h | h | h | h | h <;> rw [h] <;>
    exact natStr_ne_of_any_nondigit (by decide)

@[simp] theorem resolveSym_natStr (prog : List String) (env : String → Nat) (n : Nat) :
    resolveSym prog env (natStr n) = n := by
  unfold resolveSym
  rw [predef_lookup_natStr, parseNat_natStr]

theorem predef_lookup_dot {sym : String} (h : '.' ∈ sym.data) :
    predefSyms.lookup sym = none := by
  apply lookup_eq_none_of_ne
  intro p hp
  simp [predefSyms] at hp
  rcases hp with he | he | he | he | he | he | he <;> rw [he] <;> intro hs <;>
    rw [hs] at h <;> revert h <;> decide

theorem parseNat_none_of_nondigit {s : String} {c : Char}
    (hc : c ∈ s.data) (hnd : isDigitChar c = false) : parseNat s = none := by
  unfold parseNat
  cases hd : s.data with
  | nil => rfl
  | cons x xs =>
    rw [hd] at hc
    exact parseNatGo_none_of_nondigit hc hnd

theorem resolveSym_dot_label {prog : List String} {env : String → Nat} {sym : String} {k : Nat}
    (hdot : '.' ∈ sym.data) (hfl : findLabel prog sym = some k) :
    resolveSym prog env sym = k := by
  unfold resolveSym
  rw [predef_lookup_dot hdot, parseNat_none_of_nondigit hdot (by decide), hfl]

theorem resolveSym_dot_env {prog : List String} {env : String → Nat} {sym : String}
    (hdot : '.' ∈ sym.data) (hfl : findLabel prog sym = none) :
    resolveSym prog env sym = env sym := by
  unfold resolveSym
  rw [predef_lookup_dot hdot, parseNat_none_of_nondigit hdot (by decide), hfl]

theorem run_step {prog : List String} {env : String → Nat} {fuel : Nat} {m m2 : Mach}
    {pc pc2 : Nat} (hpc : pc < prog.length) (hs : step prog env m pc = some (m2, pc2)) :
    run prog env (fuel + 1) m pc = run prog env fuel m2 pc2 := by
  simp [run, hpc, hs]

theorem run_exit {prog : List String} {env : String → Nat} {fuel : Nat} {m : Mach} {pc : Nat}
    (hf : fuel ≠ 0) (hpc : ¬ pc < prog.length) :
    run prog env fuel m pc = some (m, pc) := by
  cases fuel with
  | zero => exact absurd rfl hf
  | succ f => simp [run, hpc]

theorem step_of_execLine {prog : List String} {env : String → Nat} {m m2 : Mach}
    {pc : Nat} {line : String} (hl : prog[pc]? = some line)
    (he : execLine (resolveSym prog env) line m = some m2) :
    step prog env m pc = some (m2, pc + 1) := by
  simp [step, hl, he]

theorem step_jump {prog : List String} {env : String → Nat} {m m2 : Mach}
    {pc : Nat} {line : String} (hl : prog[pc]? = some line)
    (he : execLine (resolveSym prog env) line m = none)
    (hc : cstep line m = some (m2, true)) :
    step prog env m pc = some (m2, m2.a) := by
  simp [step, hl, he, hc]

theorem run_execSeq {prog : List String} {env : String → Nat} :
    ∀ (seg : List String) (pc fuel : Nat) (m m2 : Mach),
      (prog.drop pc).take seg.length = seg →
      execSeq (resolveSym prog env) seg m = some m2 →
      run prog env (fuel + seg.length) m pc = run prog env fuel m2 (pc + seg.length) := by
  intro seg
  induction seg with
  | nil =>
    intro pc fuel m m2 _ hexec
    simp [execSeq] at hexec
    subst hexec
    simp
  | cons line rest ih =>
    intro pc fuel m m2 htake hexec
    cases hd : prog.drop pc with
    | nil =>
      rw [hd] at htake
      simp at htake
    | cons a t =>
      rw [hd, List.length_cons, List.take_succ_cons] at htake
      have ha : a = line := by
        have := congrArg (fun l => l.head?) htake
        simpa using this
      have ht : t.take rest.length = rest := by
        have := congrArg (fun l => l.tail) htake
        simpa using this
      have hpc : pc < prog.length := by
        by_contra hge
        rw [List.drop_eq_nil_of_le (by omega)] at hd
        cases hd
      have hline : prog[pc]? = some line := by
        rw [← List.head?_drop, hd]
        simp [ha]
      rw [execSeq] at hexec
      cases hel : execLine (resolveSym prog env) line m with
      | none => rw [hel] at hexec; cases hexec
      | some m1 =>
        rw [hel] at hexec
        have hdrop : prog.drop (pc + 1) = t := by
          have h1 : List.drop 1 (prog.drop pc) = t := by rw [hd]; rfl
          rw [List.drop_drop] at h1
          exact h1
        have hlen : (line :: rest).length = rest.length + 1 := rfl
        rw [hlen, show fuel + (rest.length + 1) = (fuel + rest.length) + 1 from by omega,
          run_step hpc (step_of_execLine hline hel),
          ih (pc + 1) fuel m1 m2 (by rw [hdrop]; exact ht) hexec,
          show pc + 1 + rest.length = pc + (rest.length + 1) from by omega]

theorem runBlock_exec {prog : List String} {env : String → Nat} {m m2 : Mach}
    (hlen : prog.length < 100)
    (hexec : execSeq (resolveSym prog env) prog m = some m2) :
    runBlock prog env m = some (m2, prog.length) := by
  unfold runBlock
  rw [show (100:Nat) = (100 - prog.length) + prog.length from by omega,
    run_execSeq prog 0 (100 - prog.length) m m2 (by simp) hexec,
    Nat.zero_add]
  exact run_exit (by omega) (by omega)

theorem run_seg {seg : List String} (fuel fuel2 pc pc2 : Nat) {prog : List String}
    {env : String → Nat} {m m2 : Mach}
    (hexec : execSeq (resolveSym prog env) seg m = some m2)
    (htake : (prog.drop pc).take seg.length = seg)
    (hfuel : fuel = fuel2 + seg.length) (hpc : pc2 = pc + seg.length) :
    run prog env fuel m pc = run prog env fuel2 m2 pc2 := by
  subst hfuel hpc
  exact run_execSeq seg pc fuel2 m m2 htake hexec

theorem run_one (fuel fuel2 pc pc2 : Nat) {prog : List String} {env : String → Nat}
    {m m2 : Mach}
    (hs : step prog env m pc = some (m2, pc2))
    (hpc : pc < prog.length) (hfuel : fuel = fuel2 + 1) :
    run prog env fuel m pc = run prog env fuel2 m2 pc2 := by
  subst hfuel
  exact run_step hpc hs

/-! Per-line equations of `execLine` for the instruction texts the code
writer emits, plus symbol-resolution values; these drive the symbolic
execution of the emitted blocks. -/

@[simp] theorem execLine_at (res : String → Nat) (s : String) (m : Mach) :
    execLine res ("@" ++ s) m = some { m with a := w (res s) } := by
  unfold execLine
  rw [at_data]
  rfl

@[simp] theorem execLine_paren (res : String → Nat) (s : String) (m : Mach) :
    execLine res ("(" ++ s ++ ")") m = some m := by
  unfold execLine
  rw [paren_data]
  rfl

@[simp] theorem execLine_atSP (res : String → Nat) (m : Mach) :
    execLine res "@SP" m = some { m with a := w (res "SP") } := rfl

@[simp] theorem execLine_atLCL (res : String → Nat) (m : Mach) :
    execLine res "@LCL" m = some { m with a := w (res "LCL") } := rfl

@[simp] theorem execLine_atARG (res : String → Nat) (m : Mach) :
    execLine res "@ARG" m = some { m with a := w (res "ARG") } := rfl

@[simp] theorem execLine_atTHIS (res : String → Nat) (m : Mach) :
    execLine res "@THIS" m = some { m with a := w (res "THIS") } := rfl

@[simp] theorem execLine_atTHAT (res : String → Nat) (m : Mach) :
    execLine res "@THAT" m = some { m with a := w (res "THAT") } := rfl

@[simp] theorem execLine_at5 (res : String → Nat) (m : Mach) :
    execLine res "@5" m = some { m with a := w (res "5") } := rfl

@[simp] theorem execLine_atR13 (res : String → Nat) (m : Mach) :
    execLine res "@R13" m = some { m with a := w (res "R13") } := rfl

@[simp] theorem execLine_atEndframe (res : String → Nat) (m : Mach) :
    execLine res "@endframe" m = some { m with a := w (res "endframe") } := rfl

@[simp] theorem execLine_atRetAddr (res : String → Nat) (m : Mach) :
    execLine res "@retAddr" m = some { m with a := w (res "retAddr") } := rfl

@[simp] theorem execLine_DA (res : String → Nat) (m : Mach) :
    execLine res "D=A" m = some { m with d := m.a } := rfl

@[simp] theorem execLine_AD (res : String → Nat) (m : Mach) :
    execLine res "A=D" m = some { m with a := m.d } := rfl

@[simp] theorem execLine_DM (res : String → Nat) (m : Mach) :
    execLine res "D=M" m = some { m with d := w (m.ram m.a) } := rfl

@[simp] theorem execLine_AM (res : String → Nat) (m : Mach) :
    execLine res "A=M" m = some { m with a := w (m.ram m.a) } := rfl

@[simp] theorem execLine_MD (res : String → Nat) (m : Mach) :
    execLine res "M=D" m = some (wr m m.a m.d) := rfl

@[simp] theorem execLine_AMm1 (res : String → Nat) (m : Mach) :
    execLine res "A=M-1" m = some { m with a := wsub (m.ram m.a) 1 } := rfl

@[simp] theorem execLine_AAm1 (res : String → Nat) (m : Mach) :
    execLine res "A=A-1" m = some { m with a := wsub m.a 1 } := rfl

@[simp] theorem execLine_MMp1 (res : String → Nat) (m : Mach) :
    execLine res "M=M+1" m = some (wr m m.a (w (m.ram m.a + 1))) := rfl

@[simp] theorem execLine_MMm1 (res : String → Nat) (m : Mach) :
    execLine res "M=M-1" m = some (wr m m.a (wsub (m.ram m.a) 1)) := rfl

@[simp] theorem execLine_DMp1 (res : String → Nat) (m : Mach) :
    execLine res "D=M+1" m = some { m with d := w (m.ram m.a + 1) } := rfl

@[simp] theorem execLine_DDmA (res : String → Nat) (m : Mach) :
    execLine res "D=D-A" m = some { m with d := wsub m.d m.a } := rfl

@[simp] theorem execLine_DDpA (res : String → Nat) (m : Mach) :
    execLine res "D=D+A" m = some { m with d := w (m.d + m.a) } := rfl

@[simp] theorem execLine_ADpA (res : String → Nat) (m : Mach) :
    execLine res "A=D+A" m = some { m with a := w (m.d + m.a) } := rfl

@[simp] theorem execLine_ADmA (res : String → Nat) (m : Mach) :
    execLine res "A=D-A" m = some { m with a := wsub m.d m.a } := rfl

@[simp] theorem execLine_DMmD (res : String → Nat) (m : Mach) :
    execLine res "D=M-D" m = some { m with d := wsub (m.ram m.a) m.d } := rfl

@[simp] theorem execLine_MMmD (res : String → Nat) (m : Mach) :
    execLine res "M=M-D" m = some (wr m m.a (wsub (m.ram m.a) m.d)) := rfl

@[simp] theorem execLine_MDpM (res : String → Nat) (m : Mach) :
    execLine res "M=D+M" m = some (wr m m.a (w (m.d + m.ram m.a))) := rfl

@[simp] theorem execLine_MDandM (res : String → Nat) (m : Mach) :
    execLine res "M=D&M" m = some (wr m m.a (Nat.land (w m.d) (w (m.ram m.a)))) := rfl

@[simp] theorem execLine_MDorM (res : String → Nat) (m : Mach) :
    execLine res "M=D|M" m = some (wr m m.a (Nat.lor (w m.d) (w (m.ram m.a)))) := rfl

@[simp] theorem execLine_MnotM (res : String → Nat) (m : Mach) :
    execLine res "M=!M" m = some (wr m m.a (wnot (m.ram m.a))) := rfl

@[simp] theorem execLine_MnegM (res : String → Nat) (m : Mach) :
    execLine res "M=-M" m = some (wr m m.a (wneg (m.ram m.a))) := rfl

@[simp] theorem execLine_M0 (res : String → Nat) (m : Mach) :
    execLine res "M=0" m = some (wr m m.a 0) := rfl

@[simp] theorem execLine_Mm1 (res : String → Nat) (m : Mach) :
    execLine res "M=-1" m = some (wr m m.a 65535) := rfl

@[simp] theorem execLine_JMP (res : String → Nat) (m : Mach) :
    execLine res "0;JMP" m = none := rfl

theorem execLine_JNE_untaken (res : String → Nat) (m : Mach) (h : ¬ (w m.d ≠ 0)) :
    execLine res "D;JNE" m = some m := by
  unfold execLine cstep
  simp [h]

theorem execLine_JNE_taken (res : String → Nat) (m : Mach) (h : w m.d ≠ 0) :
    execLine res "D;JNE" m = none := by
  unfold execLine cstep
  simp [h]

theorem cstep_JNE_taken (m : Mach) (h : w m.d ≠ 0) :
    cstep "D;JNE" m = some (m, true) := by
  unfold cstep
  simp [h]

theorem execLine_JEQ_untaken (res : String → Nat) (m : Mach) (h : ¬ (w m.d = 0)) :
    execLine res "D;JEQ" m = some m := by
  unfold execLine cstep
  simp [h]

theorem execLine_JEQ_taken (res : String → Nat) (m : Mach) (h : w m.d = 0) :
    execLine res "D;JEQ" m = none := by
  unfold execLine cstep
  simp [h]

theorem cstep_JEQ_taken (m : Mach) (h : w m.d = 0) :
    cstep "D;JEQ" m = some (m, true) := by
  unfold cstep
  simp [h]

theorem execLine_JLT_untaken (res : String → Nat) (m : Mach) (h : ¬ (32768 ≤ w m.d)) :
    execLine res "D;JLT" m = some m := by
  unfold execLine cstep
  simp [h]

theorem execLine_JLT_taken (res : String → Nat) (m : Mach) (h : 32768 ≤ w m.d) :
    execLine res "D;JLT" m = none := by
  unfold execLine cstep
  simp [h]

theorem cstep_JLT_taken (m : Mach) (h : 32768 ≤ w m.d) :
    cstep "D;JLT" m = some (m, true) := by
  unfold cstep
  simp [h]

theorem execLine_JGT_untaken (res : String → Nat) (m : Mach) (h : ¬ (0 < w m.d ∧ w m.d < 32768)) :
    execLine res "D;JGT" m = some m := by
  unfold execLine cstep
  simp [h]

theorem execLine_JGT_taken (res : String → Nat) (m : Mach) (h : 0 < w m.d ∧ w m.d < 32768) :
    execLine res "D;JGT" m = none := by
  unfold execLine cstep
  simp [h]

theorem cstep_JGT_taken (m : Mach) (h : 0 < w m.d ∧ w m.d < 32768) :
    cstep "D;JGT" m = some (m, true) := by
  unfold cstep
  simp [h]

theorem cstep_JMP (m : Mach) : cstep "0;JMP" m = some (m, true) := rfl

@[simp] theorem resolveSym_SP (prog : List String) (env : String → Nat) :
    resolveSym prog env "SP" = 0 := rfl

@[simp] theorem resolveSym_LCL (prog : List String) (env : String → Nat) :
    resolveSym prog env "LCL" = 1 := rfl

@[simp] theorem resolveSym_ARG (prog : List String) (env : String → Nat) :
    resolveSym prog env "ARG" = 2 := rfl

@[simp] theorem resolveSym_THIS (prog : List String) (env : String → Nat) :
    resolveSym prog env "THIS" = 3 := rfl

@[simp] theorem resolveSym_THAT (prog : List String) (env : String → Nat) :
    resolveSym prog env "THAT" = 4 := rfl

@[simp] theorem resolveSym_R13 (prog : List String) (env : String → Nat) :
    resolveSym prog env "R13" = 13 := rfl

@[simp] theorem resolveSym_five (prog : List String) (env : String → Nat) :
    resolveSym prog env "5" = 5 := rfl

@[simp] theorem w_lit0 : w 0 = 0 := rfl

@[simp] theorem w_lit1 : w 1 = 1 := rfl

@[simp] theorem w_lit2 : w 2 = 2 := rfl

@[simp] theorem w_lit3 : w 3 = 3 := rfl

@[simp] theorem w_lit4 : w 4 = 4 := rfl

@[simp] theorem w_lit5 : w 5 = 5 := rfl

@[simp] theorem w_lit13 : w 13 = 13 := rfl

@[simp] theorem w_lit18 : w 18 = 18 := rfl

theorem w_small {x : Nat} (h : x < W) : w x = x := Nat.mod_eq_of_lt h

theorem wsub_small {x y : Nat} (hy : y ≤ x) (hx : x < W) : wsub x y = x - y := by
  unfold wsub w
  rw [Nat.mod_eq_of_lt hx, Nat.mod_eq_of_lt (by omega : y < W)]
  rw [show x + W - y = (x - y) + W from by omega, Nat.add_mod_right]
  exact Nat.mod_eq_of_lt (by omega)

attribute [irreducible] wsub wneg wnot

@[simp] theorem w_w (x : Nat) : w (w x) = w x := by
  unfold w W
  omega

@[simp] theorem w_add (x y : Nat) : w (w x + w y) = w (x + y) := by
  unfold w W
  omega

@[simp] theorem w_add_l (x y : Nat) : w (w x + y) = w (x + y) := by
  unfold w W
  omega

@[simp] theorem w_add_r (x y : Nat) : w (x + w y) = w (x + y) := by
  unfold w W
  omega

theorem findLabelGo_none (sym : String) :
    ∀ (l : List String) (k : Nat),
      (∀ line ∈ l, line.data.head? ≠ some '(') → findLabelGo l sym k = none := by
  intro l
  induction l with
  | nil => intro k _; rfl
  | cons line rest ih =>
    intro k h
    unfold findLabelGo
    rw [if_neg (fun hc => (h line (by simp)) (by rw [hc]; rfl))]
    exact ih (k + 1) (fun l2 hl2 => h l2 (by simp [hl2]))

theorem findLabel_none {prog : List String} {sym : String}
    (h : ∀ line ∈ prog, line.data.head? ≠ some '(') : findLabel prog sym = none :=
  findLabelGo_none sym prog 0 h

theorem wr_ram_self (m : Mach) (a v : Nat) : (wr m a v).ram a = v := by
  simp [wr]

theorem wr_ram_ne (m : Mach) (a v x : Nat) (h : x ≠ a) : (wr m a v).ram x = m.ram x := by
  simp [wr, h]

theorem execSeq_append (res : String → Nat) :
    ∀ (l1 l2 : List String) (m : Mach),
      execSeq res (l1 ++ l2) m =
        match execSeq res l1 m with
        | none => none
        | some m1 => execSeq res l2 m1 := by
  intro l1
  induction l1 with
  | nil => intro l2 m; rfl
  | cons line rest ih =>
    intro l2 m
    show execSeq res (line :: (rest ++ l2)) m = _
    rw [execSeq]
    cases hel : execLine res line m with
    | none =>
      rw [show execSeq res (line :: rest) m = match execLine res line m with
        | none => none
        | some m2 => execSeq res rest m2 from rfl, hel]
    | some m1 =>
      rw [show execSeq res (line :: rest) m = match execLine res line m with
        | none => none
        | some m2 => execSeq res rest m2 from rfl, hel]
      exact ih l2 m1

theorem loopVisits_eq_range (lines : List String) :
    ∀ n i, lines.length - 1 - i = n → loopVisits lines i = List.range' (i + 1) n := by
  intro n
  induction n with
  | zero =>
    intro i h
    have hb : hasMoreLines lines i = false := by
      unfold hasMoreLines
      rw [if_pos (by omega)]
    unfold loopVisits
    simp [hb]
  | succ n ih =>
    intro i h
    have hb : hasMoreLines lines i = true := by
      unfold hasMoreLines
      rw [if_neg (by omega)]
    unfold loopVisits
    simp only [hb, dif_pos]
    rw [ih (i + 1) (by omega), List.range'_succ]

/-! Per-command stack-pointer effect of the emitted blocks (claim C3). -/

theorem push_sp_delta (fn : String) (seg : SegmentTypes) (i : Nat) (env : String → Nat)
    (st : Mach) (h1 : 1 ≤ st.ram 0) (h2 : st.ram 0 + 1 < W) :
    ∃ m2 : Mach, runBlock (getPushAsm fn seg i) env st =
        some (m2, (getPushAsm fn seg i).length) ∧ m2.ram 0 = st.ram 0 + 1 := by
  have hsp : w (st.ram 0) = st.ram 0 := w_small (by omega)
  cases seg
  · obtain ⟨m2, hm2⟩ : ∃ m2, execSeq (resolveSym (getPushAsm fn .local i) env)
        (getPushAsm fn .local i) st = some m2 := by
      simp [getPushAsm, execSeq]
    refine ⟨m2, runBlock_exec (by simp [getPushAsm]) hm2, ?_⟩
    simp [getPushAsm, execSeq] at hm2
    subst hm2
    simp only [wr, hsp]
    simp only [if_true]
    rw [if_neg (show ¬ (0:Nat) = st.ram 0 by omega)]
    exact w_small h2
  · obtain ⟨m2, hm2⟩ : ∃ m2, execSeq (resolveSym (getPushAsm fn .argument i) env)
        (getPushAsm fn .argument i) st = some m2 := by
      simp [getPushAsm, execSeq]
    refine ⟨m2, runBlock_exec (by simp [getPushAsm]) hm2, ?_⟩
    simp [getPushAsm, execSeq] at hm2
    subst hm2
    simp only [wr, hsp]
    simp only [if_true]
    rw [if_neg (show ¬ (0:Nat) = st.ram 0 by omega)]
    exact w_small h2
  · obtain ⟨m2, hm2⟩ : ∃ m2, execSeq (resolveSym (getPushAsm fn .this i) env)
        (getPushAsm fn .this i) st = some m2 := by
      simp [getPushAsm, execSeq]
    refine ⟨m2, runBlock_exec (by simp [getPushAsm]) hm2, ?_⟩
    simp [getPushAsm, execSeq] at hm2
    subst hm2
    simp only [wr, hsp]
    simp only [if_true]
    rw [if_neg (show ¬ (0:Nat) = st.ram 0 by omega)]
    exact w_small h2
  · obtain ⟨m2, hm2⟩ : ∃ m2, execSeq (resolveSym (getPushAsm fn .that i) env)
        (getPushAsm fn .that i) st = some m2 := by
      simp [getPushAsm, execSeq]
    refine ⟨m2, runBlock_exec (by simp [getPushAsm]) hm2, ?_⟩
    simp [getPushAsm, execSeq] at hm2
    subst hm2
    simp only [wr, hsp]
    simp only [if_true]
    rw [if_neg (show ¬ (0:Nat) = st.ram 0 by omega)]
    exact w_small h2
  · obtain ⟨m2, hm2⟩ : ∃ m2, execSeq (resolveSym (getPushAsm fn .constant i) env)
        (getPushAsm fn .constant i) st = some m2 := by
      simp [getPushAsm, execSeq]
    refine ⟨m2, runBlock_exec (by simp [getPushAsm]) hm2, ?_⟩
    simp [getPushAsm, execSeq] at hm2
    subst hm2
    simp only [wr, hsp]
    simp only [if_true]
    rw [if_neg (show ¬ (0:Nat) = st.ram 0 by omega)]
    exact w_small h2
  · obtain ⟨m2, hm2⟩ : ∃ m2, execSeq (resolveSym (getPushAsm fn .static i) env)
        (getPushAsm fn .static i) st = some m2 := by
      simp [getPushAsm, execSeq]
    refine ⟨m2, runBlock_exec (by simp [getPushAsm]) hm2, ?_⟩
    simp [getPushAsm, execSeq] at hm2
    subst hm2
    simp only [wr, hsp]
    simp only [if_true]
    rw [if_neg (show ¬ (0:Nat) = st.ram 0 by omega)]
    exact w_small h2
  · obtain ⟨m2, hm2⟩ : ∃ m2, execSeq (resolveSym (getPushAsm fn .temp i) env)
        (getPushAsm fn .temp i) st = some m2 := by
      simp [getPushAsm, execSeq]
    refine ⟨m2, runBlock_exec (by simp [getPushAsm]) hm2, ?_⟩
    simp [getPushAsm, execSeq] at hm2
    subst hm2
    simp only [wr, hsp]
    simp only [if_true]
    rw [if_neg (show ¬ (0:Nat) = st.ram 0 by omega)]
    exact w_small h2
  · by_cases hi : i = 0
    · obtain ⟨m2, hm2⟩ : ∃ m2, execSeq (resolveSym (getPushAsm fn .pointer i) env)
          (getPushAsm fn .pointer i) st = some m2 := by
        simp [getPushAsm, hi, execSeq]
      refine ⟨m2, runBlock_exec (by simp [getPushAsm, hi]) hm2, ?_⟩
      simp [getPushAsm, hi, execSeq] at hm2
      subst hm2
      simp only [wr, hsp]
      simp only [if_true]
      rw [if_neg (show ¬ (0:Nat) = st.ram 0 by omega)]
      exact w_small h2
    · obtain ⟨m2, hm2⟩ : ∃ m2, execSeq (resolveSym (getPushAsm fn .pointer i) env)
          (getPushAsm fn .pointer i) st = some m2 := by
        simp [getPushAsm, hi, execSeq]
      refine ⟨m2, runBlock_exec (by simp [getPushAsm, hi]) hm2, ?_⟩
      simp [getPushAsm, hi, execSeq] at hm2
      subst hm2
      simp only [wr, hsp]
      simp only [if_true]
      rw [if_neg (show ¬ (0:Nat) = st.ram 0 by omega)]
      exact w_small h2

theorem pop_sp_delta (fn : String) (seg : SegmentTypes) (i : Nat) (env : String → Nat)
    (st : Mach) (asm : List String) (ha : getPopAsm fn seg i = some asm)
    (h1 : 1 ≤ st.ram 0) (h2 : st.ram 0 < W)
    (hT : popTarget fn seg i env st ≠ 0) :
    ∃ m2 : Mach, runBlock asm env st = some (m2, asm.length) ∧ m2.ram 0 = st.ram 0 - 1 := by
  cases seg
  · simp [getPopAsm, popStoreTail] at ha
    subst ha
    simp only [popTarget] at hT
    obtain ⟨m2, hm2⟩ : ∃ m2, execSeq (resolveSym ["@" ++ natStr i, "D=A", "@LCL", "A=M", "D=D+A", "@R13", "M=D", "@SP", "A=M-1", "D=M", "@R13", "A=M", "M=D", "@SP", "M=M-1"] env) ["@" ++ natStr i, "D=A", "@LCL", "A=M", "D=D+A", "@R13", "M=D", "@SP", "A=M-1", "D=M", "@R13", "A=M", "M=D", "@SP", "M=M-1"] st = some m2 := by
      simp [execSeq]
    refine ⟨m2, runBlock_exec (by simp) hm2, ?_⟩
    simp [execSeq] at hm2
    subst hm2
    simp [wr_ram_self, wr_ram_ne, Ne.symm hT]
    rw [wsub_small h1 h2]
  · simp [getPopAsm, popStoreTail] at ha
    subst ha
    simp only [popTarget] at hT
    obtain ⟨m2, hm2⟩ : ∃ m2, execSeq (resolveSym ["@" ++ natStr i, "D=A", "@ARG", "A=M", "D=D+A", "@R13", "M=D", "@SP", "A=M-1", "D=M", "@R13", "A=M", "M=D", "@SP", "M=M-1"] env) ["@" ++ natStr i, "D=A", "@ARG", "A=M", "D=D+A", "@R13", "M=D", "@SP", "A=M-1", "D=M", "@R13", "A=M", "M=D", "@SP", "M=M-1"] st = some m2 := by
      simp [execSeq]
    refine ⟨m2, runBlock_exec (by simp) hm2, ?_⟩
    simp [execSeq] at hm2
    subst hm2
    simp [wr_ram_self, wr_ram_ne, Ne.symm hT]
    rw [wsub_small h1 h2]
  · simp [getPopAsm, popStoreTail] at ha
    subst ha
    simp only [popTarget] at hT
    obtain ⟨m2, hm2⟩ : ∃ m2, execSeq (resolveSym ["@" ++ natStr i, "D=A", "@THIS", "A=M", "D=D+A", "@R13", "M=D", "@SP", "A=M-1", "D=M", "@R13", "A=M", "M=D", "@SP", "M=M-1"] env) ["@" ++ natStr i, "D=A", "@THIS", "A=M", "D=D+A", "@R13", "M=D", "@SP", "A=M-1", "D=M", "@R13", "A=M", "M=D", "@SP", "M=M-1"] st = some m2 := by
      simp [execSeq]
    refine ⟨m2, runBlock_exec (by simp) hm2, ?_⟩
    simp [execSeq] at hm2
    subst hm2
    simp [wr_ram_self, wr_ram_ne, Ne.symm hT]
    rw [wsub_small h1 h2]
  · simp [getPopAsm, popStoreTail] at ha
    subst ha
    simp only [popTarget] at hT
    obtain ⟨m2, hm2⟩ : ∃ m2, execSeq (resolveSym ["@" ++ natStr i, "D=A", "@THAT", "A=M", "D=D+A", "@R13", "M=D", "@SP", "A=M-1", "D=M", "@R13", "A=M", "M=D", "@SP", "M=M-1"] env) ["@" ++ natStr i, "D=A", "@THAT", "A=M", "D=D+A", "@R13", "M=D", "@SP", "A=M-1", "D=M", "@R13", "A=M", "M=D", "@SP", "M=M-1"] st = some m2 := by
      simp [execSeq]
    refine ⟨m2, runBlock_exec (by simp) hm2, ?_⟩
    simp [execSeq] at hm2
    subst hm2
    simp [wr_ram_self, wr_ram_ne, Ne.symm hT]
    rw [wsub_small h1 h2]
  · simp [getPopAsm] at ha
  · simp [getPopAsm] at ha
    subst ha
    simp only [popTarget] at hT
    have hdot : '.' ∈ (fn ++ "." ++ natStr i).data := by
      simp [String.data_append]
    have hfl : findLabel ["@SP", "A=M-1", "D=M", "@" ++ (fn ++ "." ++ natStr i), "M=D", "@SP", "M=M-1"] (fn ++ "." ++ natStr i) = none := by
      apply findLabel_none
      intro line hl
      simp only [List.mem_cons, List.not_mem_nil, or_false] at hl
      rcases hl with rfl | rfl | rfl | rfl | rfl | rfl | rfl <;>
        first
          | decide
          | (rw [at_data]; simp)
    have hres : resolveSym ["@SP", "A=M-1", "D=M", "@" ++ (fn ++ "." ++ natStr i), "M=D", "@SP", "M=M-1"] env (fn ++ "." ++ natStr i) = env (fn ++ "." ++ natStr i) :=
      resolveSym_dot_env hdot hfl
    obtain ⟨m2, hm2⟩ : ∃ m2, execSeq (resolveSym ["@SP", "A=M-1", "D=M", "@" ++ (fn ++ "." ++ natStr i), "M=D", "@SP", "M=M-1"] env) ["@SP", "A=M-1", "D=M", "@" ++ (fn ++ "." ++ natStr i), "M=D", "@SP", "M=M-1"] st = some m2 := by
      simp [execSeq]
    refine ⟨m2, runBlock_exec (by simp) hm2, ?_⟩
    simp [execSeq] at hm2
    subst hm2
    simp [wr_ram_self, wr_ram_ne, hres, Ne.symm hT]
    rw [wsub_small h1 h2]
  · simp [getPopAsm, popStoreTail] at ha
    subst ha
    simp only [popTarget] at hT
    obtain ⟨m2, hm2⟩ : ∃ m2, execSeq (resolveSym ["@" ++ natStr i, "D=A", "@5", "D=D+A", "@R13", "M=D", "@SP", "A=M-1", "D=M", "@R13", "A=M", "M=D", "@SP", "M=M-1"] env) ["@" ++ natStr i, "D=A", "@5", "D=D+A", "@R13", "M=D", "@SP", "A=M-1", "D=M", "@R13", "A=M", "M=D", "@SP", "M=M-1"] st = some m2 := by
      simp [execSeq]
    refine ⟨m2, runBlock_exec (by simp) hm2, ?_⟩
    simp [execSeq] at hm2
    subst hm2
    simp [wr_ram_self, wr_ram_ne, Ne.symm hT]
    rw [wsub_small h1 h2]
  · by_cases hi : i = 0
    · simp [getPopAsm, popStoreTail, hi] at ha
      subst ha
      obtain ⟨m2, hm2⟩ : ∃ m2, execSeq (resolveSym ["@THIS", "D=A", "@R13", "M=D", "@SP", "A=M-1", "D=M", "@R13", "A=M", "M=D", "@SP", "M=M-1"] env) ["@THIS", "D=A", "@R13", "M=D", "@SP", "A=M-1", "D=M", "@R13", "A=M", "M=D", "@SP", "M=M-1"] st = some m2 := by
        simp [execSeq]
      refine ⟨m2, runBlock_exec (by simp) hm2, ?_⟩
      simp [execSeq] at hm2
      subst hm2
      simp [wr_ram_self, wr_ram_ne]
      rw [wsub_small h1 h2]
    · simp [getPopAsm, popStoreTail, hi] at ha
      subst ha
      obtain ⟨m2, hm2⟩ : ∃ m2, execSeq (resolveSym ["@THAT", "D=A", "@R13", "M=D", "@SP", "A=M-1", "D=M", "@R13", "A=M", "M=D", "@SP", "M=M-1"] env) ["@THAT", "D=A", "@R13", "M=D", "@SP", "A=M-1", "D=M", "@R13", "A=M", "M=D", "@SP", "M=M-1"] st = some m2 := by
        simp [execSeq]
      refine ⟨m2, runBlock_exec (by simp) hm2, ?_⟩
      simp [execSeq] at hm2
      subst hm2
      simp [wr_ram_self, wr_ram_ne]
      rw [wsub_small h1 h2]

theorem binary_sp_delta (op : ArithmeticCommandTypes) (lc : Nat) (env : String → Nat)
    (st : Mach) (hop : op = .add ∨ op = .sub ∨ op = .and ∨ op = .or)
    (h1 : 3 ≤ st.ram 0) (h2 : st.ram 0 < W) :
    ∃ m2 : Mach, runBlock (getArithmeticAsm op lc) env st =
        some (m2, (getArithmeticAsm op lc).length) ∧ m2.ram 0 = st.ram 0 - 1 := by
  have hs1 : wsub (st.ram 0) 1 = st.ram 0 - 1 := wsub_small (by omega) h2
  have hs2 : wsub (st.ram 0 - 1) 1 = st.ram 0 - 2 := wsub_small (by omega) (by omega)
  rcases hop with rfl | rfl | rfl | rfl
  · obtain ⟨m2, hm2⟩ : ∃ m2, execSeq (resolveSym ["@SP", "A=M-1", "D=M", "A=A-1", "M=D+M", "@SP", "M=M-1"] env) ["@SP", "A=M-1", "D=M", "A=A-1", "M=D+M", "@SP", "M=M-1"] st = some m2 := by
      simp [execSeq]
    refine ⟨m2, runBlock_exec (by simp [getArithmeticAsm, writeLabel, writeGoto, writeIfGoto]) hm2, ?_⟩
    simp [execSeq] at hm2
    subst hm2
    simp [wr_ram_self, wr_ram_ne, hs1, hs2, show (0:Nat) ≠ st.ram 0 - 2 from by omega]
  · obtain ⟨m2, hm2⟩ : ∃ m2, execSeq (resolveSym ["@SP", "A=M-1", "D=M", "A=A-1", "M=M-D", "@SP", "M=M-1"] env) ["@SP", "A=M-1", "D=M", "A=A-1", "M=M-D", "@SP", "M=M-1"] st = some m2 := by
      simp [execSeq]
    refine ⟨m2, runBlock_exec (by simp [getArithmeticAsm, writeLabel, writeGoto, writeIfGoto]) hm2, ?_⟩
    simp [execSeq] at hm2
    subst hm2
    simp [wr_ram_self, wr_ram_ne, hs1, hs2, show (0:Nat) ≠ st.ram 0 - 2 from by omega]
  · obtain ⟨m2, hm2⟩ : ∃ m2, execSeq (resolveSym ["@SP", "A=M-1", "D=M", "A=A-1", "M=D&M", "@SP", "M=M-1"] env) ["@SP", "A=M-1", "D=M", "A=A-1", "M=D&M", "@SP", "M=M-1"] st = some m2 := by
      simp [execSeq]
    refine ⟨m2, runBlock_exec (by simp [getArithmeticAsm, writeLabel, writeGoto, writeIfGoto]) hm2, ?_⟩
    simp [execSeq] at hm2
    subst hm2
    simp [wr_ram_self, wr_ram_ne, hs1, hs2, show (0:Nat) ≠ st.ram 0 - 2 from by omega]
  · obtain ⟨m2, hm2⟩ : ∃ m2, execSeq (resolveSym ["@SP", "A=M-1", "D=M", "A=A-1", "M=D|M", "@SP", "M=M-1"] env) ["@SP", "A=M-1", "D=M", "A=A-1", "M=D|M", "@SP", "M=M-1"] st = some m2 := by
      simp [execSeq]
    refine ⟨m2, runBlock_exec (by simp [getArithmeticAsm, writeLabel, writeGoto, writeIfGoto]) hm2, ?_⟩
    simp [execSeq] at hm2
    subst hm2
    simp [wr_ram_self, wr_ram_ne, hs1, hs2, show (0:Nat) ≠ st.ram 0 - 2 from by omega]

theorem unary_sp_delta (op : ArithmeticCommandTypes) (lc : Nat) (env : String → Nat)
    (st : Mach) (hop : op = .not ∨ op = .neg)
    (h1 : 2 ≤ st.ram 0) (h2 : st.ram 0 < W) :
    ∃ m2 : Mach, runBlock (getArithmeticAsm op lc) env st =
        some (m2, (getArithmeticAsm op lc).length) ∧ m2.ram 0 = st.ram 0 := by
  have hs1 : wsub (st.ram 0) 1 = st.ram 0 - 1 := wsub_small (by omega) h2
  rcases hop with rfl | rfl
  · obtain ⟨m2, hm2⟩ : ∃ m2, execSeq (resolveSym ["@SP", "A=M-1", "M=!M"] env) ["@SP", "A=M-1", "M=!M"] st = some m2 := by
      simp [execSeq]
    refine ⟨m2, runBlock_exec (by simp [getArithmeticAsm, writeLabel, writeGoto, writeIfGoto]) hm2, ?_⟩
    simp [execSeq] at hm2
    subst hm2
    simp [wr_ram_ne, hs1, show (0:Nat) ≠ st.ram 0 - 1 from by omega]
  · obtain ⟨m2, hm2⟩ : ∃ m2, execSeq (resolveSym ["@SP", "A=M-1", "M=-M"] env) ["@SP", "A=M-1", "M=-M"] st = some m2 := by
      simp [execSeq]
    refine ⟨m2, runBlock_exec (by simp [getArithmeticAsm, writeLabel, writeGoto, writeIfGoto]) hm2, ?_⟩
    simp [execSeq] at hm2
    subst hm2
    simp [wr_ram_ne, hs1, show (0:Nat) ≠ st.ram 0 - 1 from by omega]

theorem label_sp_delta (s : String) (env : String → Nat) (st : Mach) :
    runBlock (writeLabel s) env st = some (st, (writeLabel s).length) :=
  runBlock_exec (by simp [getArithmeticAsm, writeLabel, writeGoto, writeIfGoto]) (by simp [writeLabel, execSeq])

theorem goto_sp_delta (label : String) (env : String → Nat) (st : Mach)
    (hj : 2 ≤ w (resolveSym (writeGoto label) env label)) :
    ∃ (m2 : Mach) (pc2 : Nat), runBlock (writeGoto label) env st = some (m2, pc2) ∧
      m2.ram 0 = st.ram 0 := by
  refine ⟨{ st with a := w (resolveSym (writeGoto label) env label) },
    w (resolveSym (writeGoto label) env label), ?_, rfl⟩
  unfold runBlock
  rw [run_one 100 99 0 1 (step_of_execLine rfl (execLine_at _ label st)) (by simp [getArithmeticAsm, writeLabel, writeGoto, writeIfGoto]) (by simp [getArithmeticAsm, writeLabel, writeGoto, writeIfGoto])]
  rw [run_one 99 98 1 (w (resolveSym (writeGoto label) env label))
    (step_jump rfl (execLine_JMP _ _) (cstep_JMP _)) (by simp [getArithmeticAsm, writeLabel, writeGoto, writeIfGoto]) (by simp [getArithmeticAsm, writeLabel, writeGoto, writeIfGoto])]
  exact run_exit (by simp [getArithmeticAsm, writeLabel, writeGoto, writeIfGoto]) (by rw [show (writeGoto label).length = 2 from rfl]; omega)

theorem ifgoto_sp_delta (label : String) (env : String → Nat) (st : Mach)
    (h1 : 1 ≤ st.ram 0) (h2 : st.ram 0 < W)
    (hj : 7 ≤ w (resolveSym (writeIfGoto label) env label)) :
    ∃ (m2 : Mach) (pc2 : Nat), runBlock (writeIfGoto label) env st = some (m2, pc2) ∧
      m2.ram 0 = st.ram 0 - 1 := by
  obtain ⟨m6, hm6⟩ : ∃ m6, execSeq (resolveSym (writeIfGoto label) env)
      ["@SP", "A=M-1", "D=M", "@SP", "M=M-1", "@" ++ label] st = some m6 := by
    simp [execSeq]
  have hm6n := hm6
  simp [execSeq] at hm6n
  have ha6 : m6.a = w (resolveSym (writeIfGoto label) env label) := by rw [← hm6n]
  have hram : m6.ram 0 = st.ram 0 - 1 := by
    rw [← hm6n]
    simp [wr_ram_self]
    exact wsub_small h1 h2
  by_cases hd : w m6.d ≠ 0
  · refine ⟨m6, m6.a, ?_, hram⟩
    unfold runBlock
    rw [run_seg 100 94 0 6 hm6 rfl (by simp [getArithmeticAsm, writeLabel, writeGoto, writeIfGoto]) (by simp [getArithmeticAsm, writeLabel, writeGoto, writeIfGoto])]
    rw [run_one 94 93 6 m6.a
      (step_jump rfl (execLine_JNE_taken _ _ hd) (cstep_JNE_taken _ hd)) (by simp [getArithmeticAsm, writeLabel, writeGoto, writeIfGoto]) (by simp [getArithmeticAsm, writeLabel, writeGoto, writeIfGoto])]
    exact run_exit (by simp [getArithmeticAsm, writeLabel, writeGoto, writeIfGoto])
      (by rw [ha6, show (writeIfGoto label).length = 7 from rfl]; omega)
  · refine ⟨m6, 7, ?_, hram⟩
    unfold runBlock
    rw [run_seg 100 94 0 6 hm6 rfl (by simp [getArithmeticAsm, writeLabel, writeGoto, writeIfGoto]) (by simp [getArithmeticAsm, writeLabel, writeGoto, writeIfGoto])]
    rw [run_one 94 93 6 7
      (step_of_execLine rfl (execLine_JNE_untaken _ _ hd)) (by simp [getArithmeticAsm, writeLabel, writeGoto, writeIfGoto]) (by simp [getArithmeticAsm, writeLabel, writeGoto, writeIfGoto])]
    exact run_exit (by simp [getArithmeticAsm, writeLabel, writeGoto, writeIfGoto]) (by simp [getArithmeticAsm, writeLabel, writeGoto, writeIfGoto])

theorem data_ne_paren_of_head {line sym : String} (h : line.data.head? ≠ some '(') :
    line.data ≠ '(' :: (sym.data ++ [')']) :=
  fun hc => h (by rw [hc]; rfl)

theorem at_ne_paren (s sym : String) : ("@" ++ s).data ≠ '(' :: (sym.data ++ [')']) :=
  data_ne_paren_of_head (by rw [at_data]; simp)

theorem paren_ne_paren {s sym : String} (h : s ≠ sym) :
    ("(" ++ s ++ ")").data ≠ '(' :: (sym.data ++ [')']) := by
  rw [paren_data]
  intro hc
  have h2 : s.data ++ [')'] = sym.data ++ [')'] := by simpa using hc
  have h3 : s.data = sym.data := List.append_cancel_right h2
  exact h (by cases s; cases sym; exact congrArg String.mk h3)

theorem findLabelGo_skip {line : String} {rest : List String} {sym : String} {k : Nat}
    (h : line.data ≠ '(' :: (sym.data ++ [')'])) :
    findLabelGo (line :: rest) sym k = findLabelGo rest sym (k + 1) := by
  rw [show findLabelGo (line :: rest) sym k =
      if line.data = '(' :: (sym.data ++ [')']) then some k
      else findLabelGo rest sym (k + 1) from rfl,
    if_neg h]

theorem findLabelGo_hit (sym : String) (rest : List String) (k : Nat) :
    findLabelGo (("(" ++ sym ++ ")") :: rest) sym k = some k := by
  rw [show findLabelGo (("(" ++ sym ++ ")") :: rest) sym k =
      if ("(" ++ sym ++ ")").data = '(' :: (sym.data ++ [')']) then some k
      else findLabelGo rest sym (k + 1) from rfl,
    if_pos (paren_data sym)]

theorem jumpLabel_ne_endLabel (c1 c2 : Nat) : jumpLabel c1 ≠ endLabel c2 := by
  intro h
  have h1 : (jumpLabel c1).data = "COND_JUMP.".data ++ natDigits c1 := by
    simp [jumpLabel, natStr]
  have h2 : (endLabel c2).data = "COND_JUMP_END.".data ++ natDigits c2 := by
    simp [endLabel, natStr]
  have hd : "COND_JUMP.".data ++ natDigits c1 = "COND_JUMP_END.".data ++ natDigits c2 := by
    rw [← h1, ← h2, h]
  have := append_digits_unique (natDigits_all_digits c1) (natDigits_all_digits c2)
    ⟨'.', "COND_JUMP".data, by decide, by decide⟩
    ⟨'.', "COND_JUMP_END".data, by decide, by decide⟩ hd
  exact absurd this.1 (by decide)

theorem dot_mem_jumpLabel (lc : Nat) : '.' ∈ (jumpLabel lc).data := by
  rw [show (jumpLabel lc).data = "COND_JUMP.".data ++ (natStr lc).data from by
    simp [jumpLabel]]
  exact List.mem_append.mpr (Or.inl (by decide))

theorem dot_mem_endLabel (lc : Nat) : '.' ∈ (endLabel lc).data := by
  rw [show (endLabel lc).data = "COND_JUMP_END.".data ++ (natStr lc).data from by
    simp [endLabel]]
  exact List.mem_append.mpr (Or.inl (by decide))

theorem findLabel_comparison_jump (jump : String) (lc : Nat)
    (hnl : jump.data.head? ≠ some '(') :
    findLabel (comparisonAsm jump lc) (jumpLabel lc) = some 13 := by
  unfold findLabel comparisonAsm
  rw [findLabelGo_skip (data_ne_paren_of_head (by decide)),
    findLabelGo_skip (data_ne_paren_of_head (by decide)),
    findLabelGo_skip (data_ne_paren_of_head (by decide)),
    findLabelGo_skip (data_ne_paren_of_head (by decide)),
    findLabelGo_skip (data_ne_paren_of_head (by decide)),
    findLabelGo_skip (at_ne_paren _ _),
    findLabelGo_skip (data_ne_paren_of_head hnl),
    findLabelGo_skip (data_ne_paren_of_head (by decide)),
    findLabelGo_skip (data_ne_paren_of_head (by decide)),
    findLabelGo_skip (data_ne_paren_of_head (by decide)),
    findLabelGo_skip (data_ne_paren_of_head (by decide)),
    findLabelGo_skip (at_ne_paren _ _),
    findLabelGo_skip (data_ne_paren_of_head (by decide)),
    findLabelGo_hit]

theorem findLabel_comparison_end (jump : String) (lc : Nat)
    (hnl : jump.data.head? ≠ some '(') :
    findLabel (comparisonAsm jump lc) (endLabel lc) = some 18 := by
  unfold findLabel comparisonAsm
  rw [findLabelGo_skip (data_ne_paren_of_head (by decide)),
    findLabelGo_skip (data_ne_paren_of_head (by decide)),
    findLabelGo_skip (data_ne_paren_of_head (by decide)),
    findLabelGo_skip (data_ne_paren_of_head (by decide)),
    findLabelGo_skip (data_ne_paren_of_head (by decide)),
    findLabelGo_skip (at_ne_paren _ _),
    findLabelGo_skip (data_ne_paren_of_head hnl),
    findLabelGo_skip (data_ne_paren_of_head (by decide)),
    findLabelGo_skip (data_ne_paren_of_head (by decide)),
    findLabelGo_skip (data_ne_paren_of_head (by decide)),
    findLabelGo_skip (data_ne_paren_of_head (by decide)),
    findLabelGo_skip (at_ne_paren _ _),
    findLabelGo_skip (data_ne_paren_of_head (by decide)),
    findLabelGo_skip (paren_ne_paren (jumpLabel_ne_endLabel lc lc)),
    findLabelGo_skip (data_ne_paren_of_head (by decide)),
    findLabelGo_skip (data_ne_paren_of_head (by decide)),
    findLabelGo_skip (data_ne_paren_of_head (by decide)),
    findLabelGo_skip (data_ne_paren_of_head (by decide)),
    findLabelGo_hit]

theorem resolveSym_comparison_jump (jump : String) (lc : Nat) (env : String → Nat)
    (hnl : jump.data.head? ≠ some '(') :
    resolveSym (comparisonAsm jump lc) env (jumpLabel lc) = 13 :=
  resolveSym_dot_label (dot_mem_jumpLabel lc) (findLabel_comparison_jump jump lc hnl)

theorem resolveSym_comparison_end (jump : String) (lc : Nat) (env : String → Nat)
    (hnl : jump.data.head? ≠ some '(') :
    resolveSym (comparisonAsm jump lc) env (endLabel lc) = 18 :=
  resolveSym_dot_label (dot_mem_endLabel lc) (findLabel_comparison_end jump lc hnl)

theorem comparison_JEQ_sp_delta (lc : Nat) (env : String → Nat) (st : Mach)
    (h1 : 3 ≤ st.ram 0) (h2 : st.ram 0 < W) :
    ∃ m2 : Mach, runBlock (comparisonAsm "D;JEQ" lc) env st =
        some (m2, (comparisonAsm "D;JEQ" lc).length) ∧ m2.ram 0 = st.ram 0 - 1 := by
  have hs1 : wsub (st.ram 0) 1 = st.ram 0 - 1 := wsub_small (by omega) h2
  have hs2 : wsub (st.ram 0 - 1) 1 = st.ram 0 - 2 := wsub_small (by omega) (by omega)
  have hrj : resolveSym (comparisonAsm "D;JEQ" lc) env (jumpLabel lc) = 13 :=
    resolveSym_comparison_jump _ lc env (by decide)
  have hre : resolveSym (comparisonAsm "D;JEQ" lc) env (endLabel lc) = 18 :=
    resolveSym_comparison_end _ lc env (by decide)
  obtain ⟨m6, hm6⟩ : ∃ m6, execSeq (resolveSym (comparisonAsm "D;JEQ" lc) env)
      ["@SP", "A=M-1", "D=M", "A=A-1", "D=M-D", "@" ++ jumpLabel lc] st = some m6 := by
    simp [execSeq]
  have hm6n := hm6
  simp [execSeq, hrj] at hm6n
  have ha6 : m6.a = 13 := by rw [← hm6n]
  have hram6 : ∀ x, m6.ram x = st.ram x := by intro x; rw [← hm6n]
  by_cases hd : w m6.d = 0
  · obtain ⟨mT, hmT⟩ : ∃ mT, execSeq (resolveSym (comparisonAsm "D;JEQ" lc) env)
        ["@SP", "A=M-1", "A=A-1", "M=-1"] m6 = some mT := by
      simp [execSeq]
    obtain ⟨mF, hmF⟩ : ∃ mF, execSeq (resolveSym (comparisonAsm "D;JEQ" lc) env)
        ["@SP", "M=M-1"] mT = some mF := by
      simp [execSeq]
    refine ⟨mF, ?_, ?_⟩
    · unfold runBlock
      rw [run_seg 100 94 0 6 hm6 rfl (by simp) (by simp)]
      have hstep6 : step (comparisonAsm "D;JEQ" lc) env m6 6 = some (m6, 13) := by
        rw [← ha6]
        exact step_jump rfl (execLine_JEQ_taken _ _ hd) (cstep_JEQ_taken _ hd)
      rw [run_one 94 93 6 13 hstep6 (by simp [comparisonAsm]) (by simp)]
      rw [run_one 93 92 13 14 (step_of_execLine rfl (execLine_paren _ _ _))
        (by simp [comparisonAsm]) (by simp)]
      rw [run_seg 92 88 14 18 hmT rfl (by simp) (by simp)]
      rw [run_one 88 87 18 19 (step_of_execLine rfl (execLine_paren _ _ _))
        (by simp [comparisonAsm]) (by simp)]
      rw [run_seg 87 85 19 21 hmF rfl (by simp) (by simp)]
      exact run_exit (by simp) (by simp [comparisonAsm])
    · have hmFn := hmF
      simp [execSeq] at hmFn
      have hF0 : mF.ram 0 = wsub (mT.ram 0) 1 := by
        rw [← hmFn]
        simp [wr_ram_self]
      have hmTn := hmT
      simp [execSeq] at hmTn
      have hT0 : mT.ram 0 = st.ram 0 := by
        rw [← hmTn]
        simp [wr_ram_ne, hram6, hs1, hs2, show (0:Nat) ≠ st.ram 0 - 2 from by omega]
      rw [hF0, hT0, hs1]
  · obtain ⟨mU, hmU⟩ : ∃ mU, execSeq (resolveSym (comparisonAsm "D;JEQ" lc) env)
        ["@SP", "A=M-1", "A=A-1", "M=0", "@" ++ endLabel lc] m6 = some mU := by
      simp [execSeq]
    have hmUn := hmU
    simp [execSeq, hre] at hmUn
    have haU : mU.a = 18 := by rw [← hmUn]
    obtain ⟨mF, hmF⟩ : ∃ mF, execSeq (resolveSym (comparisonAsm "D;JEQ" lc) env)
        ["@SP", "M=M-1"] mU = some mF := by
      simp [execSeq]
    refine ⟨mF, ?_, ?_⟩
    · unfold runBlock
      rw [run_seg 100 94 0 6 hm6 rfl (by simp) (by simp)]
      rw [run_one 94 93 6 7 (step_of_execLine rfl (execLine_JEQ_untaken _ _ hd))
        (by simp [comparisonAsm]) (by simp)]
      rw [run_seg 93 88 7 12 hmU rfl (by simp) (by simp)]
      have hstep12 : step (comparisonAsm "D;JEQ" lc) env mU 12 = some (mU, 18) := by
        rw [← haU]
        exact step_jump rfl (execLine_JMP _ _) (cstep_JMP _)
      rw [run_one 88 87 12 18 hstep12 (by simp [comparisonAsm]) (by simp)]
      rw [run_one 87 86 18 19 (step_of_execLine rfl (execLine_paren _ _ _))
        (by simp [comparisonAsm]) (by simp)]
      rw [run_seg 86 84 19 21 hmF rfl (by simp) (by simp)]
      exact run_exit (by simp) (by simp [comparisonAsm])
    · have hmFn := hmF
      simp [execSeq] at hmFn
      have hF0 : mF.ram 0 = wsub (mU.ram 0) 1 := by
        rw [← hmFn]
        simp [wr_ram_self]
      have hmUn2 := hmU
      simp [execSeq] at hmUn2
      have hU0 : mU.ram 0 = st.ram 0 := by
        rw [← hmUn2]
        simp [wr_ram_ne, hram6, hs1, hs2, show (0:Nat) ≠ st.ram 0 - 2 from by omega]
      rw [hF0, hU0, hs1]

theorem comparison_JGT_sp_delta (lc : Nat) (env : String → Nat) (st : Mach)
    (h1 : 3 ≤ st.ram 0) (h2 : st.ram 0 < W) :
    ∃ m2 : Mach, runBlock (comparisonAsm "D;JGT" lc) env st =
        some (m2, (comparisonAsm "D;JGT" lc).length) ∧ m2.ram 0 = st.ram 0 - 1 := by
  have hs1 : wsub (st.ram 0) 1 = st.ram 0 - 1 := wsub_small (by omega) h2
  have hs2 : wsub (st.ram 0 - 1) 1 = st.ram 0 - 2 := wsub_small (by omega) (by omega)
  have hrj : resolveSym (comparisonAsm "D;JGT" lc) env (jumpLabel lc) = 13 :=
    resolveSym_comparison_jump _ lc env (by decide)
  have hre : resolveSym (comparisonAsm "D;JGT" lc) env (endLabel lc) = 18 :=
    resolveSym_comparison_end _ lc env (by decide)
  obtain ⟨m6, hm6⟩ : ∃ m6, execSeq (resolveSym (comparisonAsm "D;JGT" lc) env)
      ["@SP", "A=M-1", "D=M", "A=A-1", "D=M-D", "@" ++ jumpLabel lc] st = some m6 := by
    simp [execSeq]
  have hm6n := hm6
  simp [execSeq, hrj] at hm6n
  have ha6 : m6.a = 13 := by rw [← hm6n]
  have hram6 : ∀ x, m6.ram x = st.ram x := by intro x; rw [← hm6n]
  by_cases hd : 0 < w m6.d ∧ w m6.d < 32768
  · obtain ⟨mT, hmT⟩ : ∃ mT, execSeq (resolveSym (comparisonAsm "D;JGT" lc) env)
        ["@SP", "A=M-1", "A=A-1", "M=-1"] m6 = some mT := by
      simp [execSeq]
    obtain ⟨mF, hmF⟩ : ∃ mF, execSeq (resolveSym (comparisonAsm "D;JGT" lc) env)
        ["@SP", "M=M-1"] mT = some mF := by
      simp [execSeq]
    refine ⟨mF, ?_, ?_⟩
    · unfold runBlock
      rw [run_seg 100 94 0 6 hm6 rfl (by simp) (by simp)]
      have hstep6 : step (comparisonAsm "D;JGT" lc) env m6 6 = some (m6, 13) := by
        rw [← ha6]
        exact step_jump rfl (execLine_JGT_taken _ _ hd) (cstep_JGT_taken _ hd)
      rw [run_one 94 93 6 13 hstep6 (by simp [comparisonAsm]) (by simp)]
      rw [run_one 93 92 13 14 (step_of_execLine rfl (execLine_paren _ _ _))
        (by simp [comparisonAsm]) (by simp)]
      rw [run_seg 92 88 14 18 hmT rfl (by simp) (by simp)]
      rw [run_one 88 87 18 19 (step_of_execLine rfl (execLine_paren _ _ _))
        (by simp [comparisonAsm]) (by simp)]
      rw [run_seg 87 85 19 21 hmF rfl (by simp) (by simp)]
      exact run_exit (by simp) (by simp [comparisonAsm])
    · have hmFn := hmF
      simp [execSeq] at hmFn
      have hF0 : mF.ram 0 = wsub (mT.ram 0) 1 := by
        rw [← hmFn]
        simp [wr_ram_self]
      have hmTn := hmT
      simp [execSeq] at hmTn
      have hT0 : mT.ram 0 = st.ram 0 := by
        rw [← hmTn]
        simp [wr_ram_ne, hram6, hs1, hs2, show (0:Nat) ≠ st.ram 0 - 2 from by omega]
      rw [hF0, hT0, hs1]
  · obtain ⟨mU, hmU⟩ : ∃ mU, execSeq (resolveSym (comparisonAsm "D;JGT" lc) env)
        ["@SP", "A=M-1", "A=A-1", "M=0", "@" ++ endLabel lc] m6 = some mU := by
      simp [execSeq]
    have hmUn := hmU
    simp [execSeq, hre] at hmUn
    have haU : mU.a = 18 := by rw [← hmUn]
    obtain ⟨mF, hmF⟩ : ∃ mF, execSeq (resolveSym (comparisonAsm "D;JGT" lc) env)
        ["@SP", "M=M-1"] mU = some mF := by
      simp [execSeq]
    refine ⟨mF, ?_, ?_⟩
    · unfold runBlock
      rw [run_seg 100 94 0 6 hm6 rfl (by simp) (by simp)]
      rw [run_one 94 93 6 7 (step_of_execLine rfl (execLine_JGT_untaken _ _ hd))
        (by simp [comparisonAsm]) (by simp)]
      rw [run_seg 93 88 7 12 hmU rfl (by simp) (by simp)]
      have hstep12 : step (comparisonAsm "D;JGT" lc) env mU 12 = some (mU, 18) := by
        rw [← haU]
        exact step_jump rfl (execLine_JMP _ _) (cstep_JMP _)
      rw [run_one 88 87 12 18 hstep12 (by simp [comparisonAsm]) (by simp)]
      rw [run_one 87 86 18 19 (step_of_execLine rfl (execLine_paren _ _ _))
        (by simp [comparisonAsm]) (by simp)]
      rw [run_seg 86 84 19 21 hmF rfl (by simp) (by simp)]
      exact run_exit (by simp) (by simp [comparisonAsm])
    · have hmFn := hmF
      simp [execSeq] at hmFn
      have hF0 : mF.ram 0 = wsub (mU.ram 0) 1 := by
        rw [← hmFn]
        simp [wr_ram_self]
      have hmUn2 := hmU
      simp [execSeq] at hmUn2
      have hU0 : mU.ram 0 = st.ram 0 := by
        rw [← hmUn2]
        simp [wr_ram_ne, hram6, hs1, hs2, show (0:Nat) ≠ st.ram 0 - 2 from by omega]
      rw [hF0, hU0, hs1]

theorem comparison_JLT_sp_delta (lc : Nat) (env : String → Nat) (st : Mach)
    (h1 : 3 ≤ st.ram 0) (h2 : st.ram 0 < W) :
    ∃ m2 : Mach, runBlock (comparisonAsm "D;JLT" lc) env st =
        some (m2, (comparisonAsm "D;JLT" lc).length) ∧ m2.ram 0 = st.ram 0 - 1 := by
  have hs1 : wsub (st.ram 0) 1 = st.ram 0 - 1 := wsub_small (by omega) h2
  have hs2 : wsub (st.ram 0 - 1) 1 = st.ram 0 - 2 := wsub_small (by omega) (by omega)
  have hrj : resolveSym (comparisonAsm "D;JLT" lc) env (jumpLabel lc) = 13 :=
    resolveSym_comparison_jump _ lc env (by decide)
  have hre : resolveSym (comparisonAsm "D;JLT" lc) env (endLabel lc) = 18 :=
    resolveSym_comparison_end _ lc env (by decide)
  obtain ⟨m6, hm6⟩ : ∃ m6, execSeq (resolveSym (comparisonAsm "D;JLT" lc) env)
      ["@SP", "A=M-1", "D=M", "A=A-1", "D=M-D", "@" ++ jumpLabel lc] st = some m6 := by
    simp [execSeq]
  have hm6n := hm6
  simp [execSeq, hrj] at hm6n
  have ha6 : m6.a = 13 := by rw [← hm6n]
  have hram6 : ∀ x, m6.ram x = st.ram x := by intro x; rw [← hm6n]
  by_cases hd : 32768 ≤ w m6.d
  · obtain ⟨mT, hmT⟩ : ∃ mT, execSeq (resolveSym (comparisonAsm "D;JLT" lc) env)
        ["@SP", "A=M-1", "A=A-1", "M=-1"] m6 = some mT := by
      simp [execSeq]
    obtain ⟨mF, hmF⟩ : ∃ mF, execSeq (resolveSym (comparisonAsm "D;JLT" lc) env)
        ["@SP", "M=M-1"] mT = some mF := by
      simp [execSeq]
    refine ⟨mF, ?_, ?_⟩
    · unfold runBlock
      rw [run_seg 100 94 0 6 hm6 rfl (by simp) (by simp)]
      have hstep6 : step (comparisonAsm "D;JLT" lc) env m6 6 = some (m6, 13) := by
        rw [← ha6]
        exact step_jump rfl (execLine_JLT_taken _ _ hd) (cstep_JLT_taken _ hd)
      rw [run_one 94 93 6 13 hstep6 (by simp [comparisonAsm]) (by simp)]
      rw [run_one 93 92 13 14 (step_of_execLine rfl (execLine_paren _ _ _))
        (by simp [comparisonAsm]) (by simp)]
      rw [run_seg 92 88 14 18 hmT rfl (by simp) (by simp)]
      rw [run_one 88 87 18 19 (step_of_execLine rfl (execLine_paren _ _ _))
        (by simp [comparisonAsm]) (by simp)]
      rw [run_seg 87 85 19 21 hmF rfl (by simp) (by simp)]
      exact run_exit (by simp) (by simp [comparisonAsm])
    · have hmFn := hmF
      simp [execSeq] at hmFn
      have hF0 : mF.ram 0 = wsub (mT.ram 0) 1 := by
        rw [← hmFn]
        simp [wr_ram_self]
      have hmTn := hmT
      simp [execSeq] at hmTn
      have hT0 : mT.ram 0 = st.ram 0 := by
        rw [← hmTn]
        simp [wr_ram_ne, hram6, hs1, hs2, show (0:Nat) ≠ st.ram 0 - 2 from by omega]
      rw [hF0, hT0, hs1]
  · obtain ⟨mU, hmU⟩ : ∃ mU, execSeq (resolveSym (comparisonAsm "D;JLT" lc) env)
        ["@SP", "A=M-1", "A=A-1", "M=0", "@" ++ endLabel lc] m6 = some mU := by
      simp [execSeq]
    have hmUn := hmU
    simp [execSeq, hre] at hmUn
    have haU : mU.a = 18 := by rw [← hmUn]
    obtain ⟨mF, hmF⟩ : ∃ mF, execSeq (resolveSym (comparisonAsm "D;JLT" lc) env)
        ["@SP", "M=M-1"] mU = some mF := by
      simp [execSeq]
    refine ⟨mF, ?_, ?_⟩
    · unfold runBlock
      rw [run_seg 100 94 0 6 hm6 rfl (by simp) (by simp)]
      rw [run_one 94 93 6 7 (step_of_execLine rfl (execLine_JLT_untaken _ _ hd))
        (by simp [comparisonAsm]) (by simp)]
      rw [run_seg 93 88 7 12 hmU rfl (by simp) (by simp)]
      have hstep12 : step (comparisonAsm "D;JLT" lc) env mU 12 = some (mU, 18) := by
        rw [← haU]
        exact step_jump rfl (execLine_JMP _ _) (cstep_JMP _)
      rw [run_one 88 87 12 18 hstep12 (by simp [comparisonAsm]) (by simp)]
      rw [run_one 87 86 18 19 (step_of_execLine rfl (execLine_paren _ _ _))
        (by simp [comparisonAsm]) (by simp)]
      rw [run_seg 86 84 19 21 hmF rfl (by simp) (by simp)]
      exact run_exit (by simp) (by simp [comparisonAsm])
    · have hmFn := hmF
      simp [execSeq] at hmFn
      have hF0 : mF.ram 0 = wsub (mU.ram 0) 1 := by
        rw [← hmFn]
        simp [wr_ram_self]
      have hmUn2 := hmU
      simp [execSeq] at hmUn2
      have hU0 : mU.ram 0 = st.ram 0 := by
        rw [← hmUn2]
        simp [wr_ram_ne, hram6, hs1, hs2, show (0:Nat) ≠ st.ram 0 - 2 from by omega]
      rw [hF0, hU0, hs1]

end VM


/-- C4: for any sequence of VM commands translated in a single run the
label counter is acquired-and-incremented exactly once per source command,
before that command's emission (the command at position `k` runs with
counter value `c0 + k + 1`), and consequently the set of labels minted for
one command (the comparison jump/end label pair, the call return-address
label) is disjoint from the set minted for any other command. -/
theorem claim_C4_minted_labels_disjoint :
    (∀ (cmds : List VM.VMCommand) (c0 k : Nat) (cmd : VM.VMCommand) (c : Nat),
        (VM.translateCounters cmds c0)[k]? = some (cmd, c) → c = c0 + k + 1) ∧
    (∀ (cmds : List VM.VMCommand) (c0 i j : Nat) (a b : VM.VMCommand × Nat),
        (VM.translateCounters cmds c0)[i]? = some a →
        (VM.translateCounters cmds c0)[j]? = some b →
        i ≠ j → ∀ L ∈ VM.mintedLabels a.1 a.2, L ∉ VM.mintedLabels b.1 b.2) := by
  constructor
  · intro cmds c0 k cmd c h
    rw [VM.translateCounters_get] at h
    cases hc : cmds[k]? with
    | none => rw [hc] at h; simp at h
    | some x => rw [hc] at h; simp at h; omega
  · intro cmds c0 i j a b ha hb hij L hLa hLb
    rw [VM.translateCounters_get] at ha hb
    cases hca : cmds[i]? with
    | none => rw [hca] at ha; simp at ha
    | some x =>
      cases hcb : cmds[j]? with
      | none => rw [hcb] at hb; simp at hb
      | some y =>
        rw [hca] at ha
        rw [hcb] at hb
        simp at ha hb
        have h2a : a.2 = c0 + i + 1 := by rw [← ha]
        have h2b : b.2 = c0 + j + 1 := by rw [← hb]
        have := VM.mintedLabels_counter_ne hLa hLb
        omega

/-- Witness for C4 at a concrete two-command run: a call followed by an
`eq`, translated from counter 0. -/
theorem claim_C4_minted_labels_disjoint_witness :
    ((VM.translateCounters
        [VM.VMCommand.callCmd "Foo.bar" 0, VM.VMCommand.arithmetic VM.ArithmeticCommandTypes.eq]
        0)[0]? = some (VM.VMCommand.callCmd "Foo.bar" 0, 1)) ∧
    ((VM.translateCounters
        [VM.VMCommand.callCmd "Foo.bar" 0, VM.VMCommand.arithmetic VM.ArithmeticCommandTypes.eq]
        0)[1]? = some (VM.VMCommand.arithmetic VM.ArithmeticCommandTypes.eq, 2)) ∧
    (VM.returnAddrLabel "Foo.bar" 1 ∈
      VM.mintedLabels (VM.VMCommand.callCmd "Foo.bar" 0) 1) ∧
    (VM.returnAddrLabel "Foo.bar" 1 ∉
      VM.mintedLabels (VM.VMCommand.arithmetic VM.ArithmeticCommandTypes.eq) 2) :=
  ⟨by decide, by decide, by decide,
    claim_C4_minted_labels_disjoint.2
      [VM.VMCommand.callCmd "Foo.bar" 0, VM.VMCommand.arithmetic VM.ArithmeticCommandTypes.eq]
      0 0 1 (VM.VMCommand.callCmd "Foo.bar" 0, 1)
      (VM.VMCommand.arithmetic VM.ArithmeticCommandTypes.eq, 2)
      (by decide) (by decide) (by decide) (VM.returnAddrLabel "Foo.bar" 1) (by decide)⟩

/-- C5: `Parser.hasMoreLines()` returns False exactly when
`line_index ≥ len(lines) − 1`, i.e. it reports no more lines while the
last cleaned line is still current; consequently the main loop (which
calls `advance()` before translating) visits exactly the cleaned-line
indices `1 … len(lines) − 1`, so the cleaned line at index 0 of each file
is never translated and gets no emitted code. -/
theorem claim_C5_hasMoreLines_off_by_one :
    (∀ (lines : List String) (i : Nat),
        VM.hasMoreLines lines i = false ↔ lines.length - 1 ≤ i) ∧
    (∀ lines : List String, VM.loopVisits lines 0 = List.range' 1 (lines.length - 1)) ∧
    (∀ lines : List String, 0 ∉ VM.loopVisits lines 0) ∧
    (∀ lines : List String, 0 ∉ VM.translatedIndices lines) := by
  have hrange : ∀ lines : List String,
      VM.loopVisits lines 0 = List.range' 1 (lines.length - 1) :=
    fun lines => VM.loopVisits_eq_range lines (lines.length - 1) 0 rfl
  refine ⟨VM.hasMoreLines_false_iff, hrange, ?_, ?_⟩
  · intro lines h
    rw [hrange lines] at h
    have := List.mem_range'_1.mp h
    omega
  · intro lines h
    have := List.mem_filter.mp h
    have h0 := this.1
    rw [hrange lines] at h0
    have := List.mem_range'_1.mp h0
    omega

/-- C9 (corrected): an input line reaching translate_to_binary appends
exactly one 16-character 0/1 line when it is `@<number>` (with the
already-resolved number below 2^16) or a C-instruction containing `=` or
`;` whose mnemonics are table keys; but a comp-only C-instruction line
containing neither `=` nor `;` is silently skipped and appends nothing. -/
theorem claim_C9_one_binary_line_per_instruction :
    (∀ (n : Nat) (rest : List String), n < 65536 →
        ∃ b, Assembler.convert_a_instruction ("@" ++ natStr n) = some b ∧
          b.length = 16 ∧ (∀ c ∈ b.data, Assembler.isBinChar c = true) ∧
          Assembler.translate_to_binary (("@" ++ natStr n) :: rest) =
            (Assembler.translate_to_binary rest).map (fun out => b :: out)) ∧
    (∀ (line b : String) (rest : List String),
        line.data.take 1 ≠ ['@'] →
        Assembler.convert_c_instruction line = some b →
        b.length = 16 ∧ (∀ c ∈ b.data, Assembler.isBinChar c = true) ∧
        (Assembler.detect_c_instruction line = true →
          Assembler.translate_to_binary (line :: rest) =
            (Assembler.translate_to_binary rest).map (fun out => b :: out))) ∧
    (∀ (line : String) (rest : List String),
        line.data.take 1 ≠ ['@'] →
        Assembler.detect_c_instruction line = false →
        Assembler.translate_to_binary (line :: rest) = Assembler.translate_to_binary rest) := by
  refine ⟨?_, ?_, ?_⟩
  · intro n rest hn
    have hdata : ("@" ++ natStr n).data = '@' :: natDigits n := by
      simp [String.data_append, natStr]
    refine ⟨Assembler.format016b n, Assembler.convert_a_natStr,
      (Assembler.format016b_spec hn).1, (Assembler.format016b_spec hn).2, ?_⟩
    rw [Assembler.translate_to_binary_cons, if_pos (by rw [hdata]; rfl),
      Assembler.convert_a_natStr]
  · intro line b rest hat hcb
    obtain ⟨hlen, hbin⟩ := Assembler.convert_c_len hcb
    refine ⟨hlen, hbin, ?_⟩
    intro hdet
    rw [Assembler.translate_to_binary_cons, if_neg hat, hdet]
    simp only [if_true, hcb]
  · intro line rest hat hdet
    rw [Assembler.translate_to_binary_cons, if_neg hat, hdet]
    simp only [Bool.false_eq_true, if_false]

/-- Counterexample to C9 as stated: the comp-only line `D` is a
C-instruction of the form `[dest=]comp[;jump]` with both fields absent,
yet translate_to_binary appends no output line at all for it. -/
theorem claim_C9_counterexample :
    Assembler.detect_c_instruction "D" = false ∧
    Assembler.translate_to_binary ["D"] = some [] ∧
    (Assembler.translate_to_binary ["D"]).map List.length = some 0 := by decide

/-- Witness for C9 at the concrete line `@2`. -/
theorem claim_C9_witness :
    (2 < 65536) ∧
    (∃ b, Assembler.convert_a_instruction ("@" ++ natStr 2) = some b ∧
      b.length = 16 ∧ (∀ c ∈ b.data, Assembler.isBinChar c = true) ∧
      Assembler.translate_to_binary (("@" ++ natStr 2) :: []) =
        (Assembler.translate_to_binary []).map (fun out => b :: out)) :=
  ⟨by decide, claim_C9_one_binary_line_per_instruction.1 2 [] (by decide)⟩

/-- C10 (corrected): a C-instruction `dest=comp;jump` with table-key fields
is encoded as `111`, then the a-bit (1 iff the comp mnemonic contains `M`),
then the 6-bit comp code from the fixed 28-entry comp table, the 3-bit dest
code and the 3-bit jump code from the fixed 8-entry jump table; the dest
token must be one of the nine table keys null, M, D, DM, MD, A, AM, AD,
ADM — order-insensitivity holds only for the DM/MD pair, not for every
subset ordering. -/
theorem claim_C10_c_instruction_encoding :
    (Assembler.comp_table.length = 28) ∧
    (Assembler.jump_table.length = 8) ∧
    (Assembler.dest_table.map Prod.fst =
      ["null", "M", "D", "DM", "MD", "A", "AM", "AD", "ADM"]) ∧
    (∀ d c j dc cc jc : String,
        Assembler.dest_lookup d = some dc →
        Assembler.comp_lookup c = some cc →
        Assembler.jump_lookup j = some jc →
        Assembler.convert_c_instruction (d ++ "=" ++ c ++ ";" ++ j) =
          some ("111" ++ (if Assembler.containsChar c 'M' then "1" else "0") ++
            cc ++ dc ++ jc) ∧
        cc.length = 6 ∧ dc.length = 3 ∧ jc.length = 3) := by
  refine ⟨by decide, by decide, by decide, ?_⟩
  intro d c j dc cc jc hd hc hj
  exact ⟨Assembler.convert_c_complete hd hc hj,
    (Assembler.comp_entry_facts _ (Assembler.lookup_mem hc)).1,
    (Assembler.dest_entry_facts _ (Assembler.lookup_mem hd)).1,
    (Assembler.jump_entry_facts _ (Assembler.lookup_mem hj)).1⟩

/-- Counterexample to C10 as stated: the dest token `MA` is an ordering of
the subset {A,M} of {A,D,M}, but the dest table has no such key (only `AM`),
so the lookup and hence the whole conversion fails. -/
theorem claim_C10_counterexample :
    Assembler.dest_lookup "MA" = none ∧
    Assembler.dest_lookup "AM" = some "101" ∧
    Assembler.convert_c_instruction "MA=D+1" = none := by decide

/-- Witness for C10 at the concrete instruction `AM=M+1;JGT`. -/
theorem claim_C10_witness :
    (Assembler.dest_lookup "AM" = some "101") ∧
    (Assembler.comp_lookup "M+1" = some "110111") ∧
    (Assembler.jump_lookup "JGT" = some "001") ∧
    (Assembler.convert_c_instruction ("AM" ++ "=" ++ "M+1" ++ ";" ++ "JGT") =
        some ("111" ++ (if Assembler.containsChar "M+1" 'M' then "1" else "0") ++
          "110111" ++ "101" ++ "001") ∧
      ("110111" : String).length = 6 ∧ ("101" : String).length = 3 ∧
      ("001" : String).length = 3) :=
  ⟨by decide, by decide, by decide,
    claim_C10_c_instruction_encoding.2.2.2 "AM" "M+1" "JGT" "101" "110111" "001"
      (by decide) (by decide) (by decide)⟩

/-- C6 (the code evaluated at the failing input `a + b + c ;`):
compileExpression succeeds but stops after `a + b` — token index 3, not 5
— and the produced expression node holds one term, one operator and one
further term, because the source body is `term (op term)?` through a
single compileOptional; the grammar production `expression :=
term (op term)*` requires the whole sequence to be consumed. -/
theorem claim_C6_expression_single_op_term :
    (Jack.compileExpression 50 Jack.tsExprABC 0).err = none ∧
    (Jack.compileExpression 50 Jack.tsExprABC 0).idx = 3 ∧
    ((Jack.compileExpression 50 Jack.tsExprABC 0).idx = 5 → False) ∧
    (Jack.compileExpression 50 Jack.tsExprABC 0).out =
      [.node "expression" none
        [.node "term" none [.node "identifier" (some "a") []],
         .node "symbol" (some "+") [],
         .node "term" none [.node "identifier" (some "b") []]]] :=
  ⟨by decide, by decide, by decide, rfl⟩

/-- C7 (the code evaluated at the failing input `do g ( ) ;` and at the
dotted form `do obj . m ( ) ;`): the dotless subroutine call is rejected —
compileExpressionListCall checks the *current* token against `(` before
the subroutine name is consumed, so both alternatives of
compileSubroutineCall raise and the alternation fails — while the dotted
form parses to the end. -/
theorem claim_C7_dotless_call_rejected :
    (Jack.compileSubroutineCall 50 Jack.tsCallDotless 0).err =
      some (.parseErr "Could not find func in compileOr") ∧
    (Jack.compileDo 50 Jack.tsDoDotless 0).err =
      some (.parseErr "Could not find func in compileOr") ∧
    (Jack.compileDo 50 Jack.tsDoDotted 0).err = none ∧
    (Jack.compileDo 50 Jack.tsDoDotted 0).idx = 7 := by
  refine ⟨by decide, by decide, by decide, by decide⟩

/-- C8 (corrected): a ParseException raised anywhere inside an attempted
rule — at the first or any later token — is caught by the enclosing
combinator: option always succeeds, repetition ends, alternation moves on
to the next alternative from the advanced token position; consumed tokens
are not restored, and only non-ParseException failures propagate. -/
theorem claim_C8_combinators_catch_all_parse_failures :
    (∀ (f : Jack.Rule) (ts : List Jack.Token) (i : Nat) (msg : String),
        (f ts i).err = some (.parseErr msg) →
        Jack.compileOptional f ts i = ⟨(f ts i).idx, (f ts i).out, none⟩) ∧
    (∀ (f : Jack.Rule) (fs : List Jack.Rule) (ts : List Jack.Token) (i : Nat) (msg : String),
        (f ts i).err = some (.parseErr msg) →
        Jack.compileOr (f :: fs) ts i =
          ⟨(Jack.compileOr fs ts (f ts i).idx).idx,
           (f ts i).out ++ (Jack.compileOr fs ts (f ts i).idx).out,
           (Jack.compileOr fs ts (f ts i).idx).err⟩) ∧
    (∀ (fuel : Nat) (f : Jack.Rule) (ts : List Jack.Token) (i : Nat) (msg : String),
        (f ts i).err = some (.parseErr msg) →
        Jack.compileMultiple (fuel + 1) f ts i = ⟨(f ts i).idx, (f ts i).out, none⟩) ∧
    (∀ (f : Jack.Rule) (ts : List Jack.Token) (i : Nat) (msg : String),
        (f ts i).err = some (.crash msg) →
        Jack.compileOptional f ts i = f ts i) := by
  refine ⟨?_, ?_, ?_, ?_⟩
  · intro f ts i msg h
    simp only [Jack.compileOptional, h]
  · intro f fs ts i msg h
    simp only [Jack.compileOr, h]
  · intro fuel f ts i msg h
    simp only [Jack.compileMultiple, h]
  · intro f ts i msg h
    simp only [Jack.compileOptional, h]

/-- Counterexample to C8 as stated: in `( x ]` the bracketed-expression
alternative of compileTerm fails at its *third* token (`]` where `)` was
expected), yet the failure is not fatal: compileOr catches it and tries
the remaining unaryOpTerm alternative (the final error is compileOr's own
exhaustion message, not the symbol mismatch), and compileOptional around
the same expression succeeds outright, with the two consumed tokens not
restored. -/
theorem claim_C8_counterexample :
    (Jack.compileOptional (Jack.compileExpression 50) Jack.tsParenX 0).err = none ∧
    (Jack.compileOptional (Jack.compileExpression 50) Jack.tsParenX 0).idx = 2 ∧
    (Jack.compileTerm 50 Jack.tsParenX 0).err =
      some (.parseErr "Could not find func in compileOr") ∧
    (Jack.compileTerm 50 Jack.tsParenX 0).idx = 2 :=
  ⟨by decide, by decide, by decide, by decide⟩

/-- Witness for C8: the expression rule on `( x ]` raises a ParseException
(after consuming two tokens), and compileOptional converts it into a
success at the advanced position. -/
theorem claim_C8_witness :
    ((Jack.compileExpression 50 Jack.tsParenX 0).err =
      some (Jack.PErr.parseErr "Could not find func in compileOr")) ∧
    (Jack.compileOptional (Jack.compileExpression 50) Jack.tsParenX 0 =
      ⟨(Jack.compileExpression 50 Jack.tsParenX 0).idx,
       (Jack.compileExpression 50 Jack.tsParenX 0).out, none⟩) :=
  ⟨by decide,
    claim_C8_combinators_catch_all_parse_failures.1 (Jack.compileExpression 50)
      Jack.tsParenX 0 "Could not find func in compileOr" (by decide)⟩

/-- C3 (amended): per-command stack-pointer effect of every emitted block,
for machine states where the touched addresses do not collide with RAM[0]
(stack pointers in the real layout satisfy all the side conditions): a push
block completes and adds exactly 1 to RAM[0]; a pop block (on the segments
where getPopAsm returns assembly - for `constant` it raises) subtracts 1;
the binary arithmetic ops add/sub/and/or and the comparisons eq/gt/lt
subtract 1; the unary ops not/neg leave RAM[0] unchanged; a label block
leaves the machine untouched; a goto block leaves the RAM unchanged; but an
if-goto block SUBTRACTS 1 from RAM[0] (writeIfGoto pops its condition), not
0 as the specification states. -/
theorem claim_C3_sp_deltas :
    (∀ (fn : String) (seg : VM.SegmentTypes) (i : Nat) (env : String → Nat) (st : VM.Mach),
       1 ≤ st.ram 0 → st.ram 0 + 1 < VM.W →
       ∃ m2 : VM.Mach, VM.runBlock (VM.getPushAsm fn seg i) env st =
           some (m2, (VM.getPushAsm fn seg i).length) ∧ m2.ram 0 = st.ram 0 + 1) ∧
    (∀ (fn : String) (seg : VM.SegmentTypes) (i : Nat) (env : String → Nat) (st : VM.Mach)
       (asm : List String), VM.getPopAsm fn seg i = some asm →
       1 ≤ st.ram 0 → st.ram 0 < VM.W → VM.popTarget fn seg i env st ≠ 0 →
       ∃ m2 : VM.Mach, VM.runBlock asm env st = some (m2, asm.length) ∧
         m2.ram 0 = st.ram 0 - 1) ∧
    (∀ (fn : String) (i : Nat), VM.getPopAsm fn VM.SegmentTypes.constant i = none) ∧
    (∀ (op : VM.ArithmeticCommandTypes) (lc : Nat) (env : String → Nat) (st : VM.Mach),
       (op = .add ∨ op = .sub ∨ op = .and ∨ op = .or) →
       3 ≤ st.ram 0 → st.ram 0 < VM.W →
       ∃ m2 : VM.Mach, VM.runBlock (VM.getArithmeticAsm op lc) env st =
           some (m2, (VM.getArithmeticAsm op lc).length) ∧ m2.ram 0 = st.ram 0 - 1) ∧
    (∀ (op : VM.ArithmeticCommandTypes) (lc : Nat) (env : String → Nat) (st : VM.Mach),
       (op = .eq ∨ op = .gt ∨ op = .lt) →
       3 ≤ st.ram 0 → st.ram 0 < VM.W →
       ∃ m2 : VM.Mach, VM.runBlock (VM.getArithmeticAsm op lc) env st =
           some (m2, (VM.getArithmeticAsm op lc).length) ∧ m2.ram 0 = st.ram 0 - 1) ∧
    (∀ (op : VM.ArithmeticCommandTypes) (lc : Nat) (env : String → Nat) (st : VM.Mach),
       (op = .not ∨ op = .neg) → 2 ≤ st.ram 0 → st.ram 0 < VM.W →
       ∃ m2 : VM.Mach, VM.runBlock (VM.getArithmeticAsm op lc) env st =
           some (m2, (VM.getArithmeticAsm op lc).length) ∧ m2.ram 0 = st.ram 0) ∧
    (∀ (s : String) (env : String → Nat) (st : VM.Mach),
       VM.runBlock (VM.writeLabel s) env st = some (st, (VM.writeLabel s).length)) ∧
    (∀ (label : String) (env : String → Nat) (st : VM.Mach),
       2 ≤ VM.w (VM.resolveSym (VM.writeGoto label) env label) →
       ∃ (m2 : VM.Mach) (pc2 : Nat), VM.runBlock (VM.writeGoto label) env st =
           some (m2, pc2) ∧ m2.ram 0 = st.ram 0) ∧
    (∀ (label : String) (env : String → Nat) (st : VM.Mach),
       1 ≤ st.ram 0 → st.ram 0 < VM.W →
       7 ≤ VM.w (VM.resolveSym (VM.writeIfGoto label) env label) →
       ∃ (m2 : VM.Mach) (pc2 : Nat), VM.runBlock (VM.writeIfGoto label) env st =
           some (m2, pc2) ∧ m2.ram 0 = st.ram 0 - 1) := by
  refine ⟨?_, ?_, ?_, ?_, ?_, ?_, ?_, ?_, ?_⟩
  · intro fn seg i env st h1 h2
    exact VM.push_sp_delta fn seg i env st h1 h2
  · intro fn seg i env st asm ha h1 h2 hT
    exact VM.pop_sp_delta fn seg i env st asm ha h1 h2 hT
  · intro fn i
    rfl
  · intro op lc env st hop h1 h2
    exact VM.binary_sp_delta op lc env st hop h1 h2
  · intro op lc env st hop h1 h2
    rcases hop with rfl | rfl | rfl
    · exact VM.comparison_JEQ_sp_delta lc env st h1 h2
    · exact VM.comparison_JGT_sp_delta lc env st h1 h2
    · exact VM.comparison_JLT_sp_delta lc env st h1 h2
  · intro op lc env st hop h1 h2
    exact VM.unary_sp_delta op lc env st hop h1 h2
  · intro s env st
    exact VM.label_sp_delta s env st
  · intro label env st hj
    exact VM.goto_sp_delta label env st hj
  · intro label env st h1 h2 hj
    exact VM.ifgoto_sp_delta label env st h1 h2 hj

/-- Witness for C3: push constant 7 on a machine with SP = 256 completes
and leaves SP = 257; the if-goto block on the same machine leaves SP = 255. -/
theorem claim_C3_sp_deltas_witness :
    (∃ m2 : VM.Mach, VM.runBlock (VM.getPushAsm "Foo" VM.SegmentTypes.constant 7)
        VM.vmFixEnv VM.vmFixSt =
        some (m2, (VM.getPushAsm "Foo" VM.SegmentTypes.constant 7).length) ∧
        m2.ram 0 = VM.vmFixSt.ram 0 + 1) ∧
    (∃ (m2 : VM.Mach) (pc2 : Nat), VM.runBlock (VM.writeIfGoto "LOOP")
        VM.vmFixEnv VM.vmFixSt = some (m2, pc2) ∧
        m2.ram 0 = VM.vmFixSt.ram 0 - 1) :=
  ⟨claim_C3_sp_deltas.1 "Foo" VM.SegmentTypes.constant 7 VM.vmFixEnv VM.vmFixSt
      (by decide) (by decide),
   claim_C3_sp_deltas.2.2.2.2.2.2.2.2 "LOOP" VM.vmFixEnv VM.vmFixSt
      (by decide) (by decide) (by decide)⟩

/-- Counterexample to C3 as stated: the spec says the branching commands
change SP by 0, but executing the emitted if-goto block on SP = 256 (with
a false condition on the stack top, so the branch is not even taken) ends
with SP = 255: writeIfGoto pops the condition word. -/
theorem claim_C3_counterexample :
    (VM.runBlock (VM.writeIfGoto "LOOP") VM.vmFixEnv VM.vmFixSt).map
        (fun p => p.1.ram 0) = some 255 ∧
    VM.vmFixSt.ram 0 = 256 := by
  constructor
  · exact of_decide_eq_true (by with_unfolding_all rfl)
  · decide

set_option maxHeartbeats 4000000 in
/-- C1: the block emitted for `call f n` pushes, in order, the value of the
minted return-address label, then the current LCL, ARG, THIS and THAT words
(five words, RAM[SP]..RAM[SP+4], with SP ending at SP+5), sets ARG to
SP − 5 − n and LCL to the new SP, jumps unconditionally to the address of
label `f`, and places the return-address label as the final (50th) line;
and the return-address labels of two call commands translated at different
positions of one run are distinct. -/
theorem claim_C1_writeCall :
    (∀ (f : String) (n lc : Nat) (env : String → Nat) (st : VM.Mach),
      5 ≤ st.ram 0 → st.ram 0 + 5 < VM.W → n ≤ st.ram 0 → n < VM.W →
      50 ≤ VM.w (VM.resolveSym (VM.writeCall f n lc) env f) →
      ∃ m2 : VM.Mach,
        VM.runBlock (VM.writeCall f n lc) env st =
          some (m2, VM.w (VM.resolveSym (VM.writeCall f n lc) env f)) ∧
        m2.ram (st.ram 0) =
          VM.w (VM.resolveSym (VM.writeCall f n lc) env (VM.returnAddrLabel f lc)) ∧
        m2.ram (st.ram 0 + 1) = VM.w (st.ram 1) ∧
        m2.ram (st.ram 0 + 2) = VM.w (st.ram 2) ∧
        m2.ram (st.ram 0 + 3) = VM.w (st.ram 3) ∧
        m2.ram (st.ram 0 + 4) = VM.w (st.ram 4) ∧
        m2.ram 0 = st.ram 0 + 5 ∧
        m2.ram 2 = st.ram 0 - n ∧
        m2.ram 1 = st.ram 0 + 5) ∧
    (∀ (f : String) (n lc : Nat),
      (VM.writeCall f n lc)[49]? = some ("(" ++ VM.returnAddrLabel f lc ++ ")")) ∧
    (∀ (cmds : List VM.VMCommand) (c0 k j : Nat) (f g : String) (n m c c2 : Nat),
      (VM.translateCounters cmds c0)[k]? = some (.callCmd f n, c) →
      (VM.translateCounters cmds c0)[j]? = some (.callCmd g m, c2) →
      k ≠ j → VM.returnAddrLabel f c ≠ VM.returnAddrLabel g c2) := by
  refine ⟨?_, ?_, ?_⟩
  · intro f n lc env st h5 hW hn1 hn2 hf
    have hA0 : VM.w (st.ram 0) = st.ram 0 := VM.w_small (by omega)
    have hA1 : VM.w (st.ram 0 + 1) = st.ram 0 + 1 := VM.w_small (by omega)
    have hA2 : VM.w (st.ram 0 + 2) = st.ram 0 + 2 := VM.w_small (by omega)
    have hA3 : VM.w (st.ram 0 + 3) = st.ram 0 + 3 := VM.w_small (by omega)
    have hA4 : VM.w (st.ram 0 + 4) = st.ram 0 + 4 := VM.w_small (by omega)
    have hA5 : VM.w (st.ram 0 + 5) = st.ram 0 + 5 := VM.w_small (by omega)
    have hS5 : VM.wsub (st.ram 0 + 5) 5 = st.ram 0 := VM.wsub_small (by omega) (by omega)
    have hWn : VM.w n = n := VM.w_small hn2
    have hSn : VM.wsub (st.ram 0) n = st.ram 0 - n := VM.wsub_small hn1 (by omega)
    obtain ⟨m48, hm48⟩ : ∃ m48, VM.execSeq (VM.resolveSym (VM.writeCall f n lc) env)
        ["@" ++ VM.returnAddrLabel f lc, "D=A", "@SP", "A=M", "M=D", "@SP", "M=M+1", "@LCL", "D=M", "@SP", "A=M", "M=D", "@SP", "M=M+1", "@ARG", "D=M", "@SP", "A=M", "M=D", "@SP", "M=M+1", "@THIS", "D=M", "@SP", "A=M", "M=D", "@SP", "M=M+1", "@THAT", "D=M", "@SP", "A=M", "M=D", "@SP", "M=M+1", "@SP", "D=M", "@" ++ "5", "D=D-A", "@" ++ StrAux.natStr n, "D=D-A", "@ARG", "M=D", "@SP", "D=M", "@LCL", "M=D", "@" ++ f] st = some m48 := by
      simp only [VM.execSeq, VM.execLine_at, VM.execLine_atSP, VM.execLine_atLCL,
        VM.execLine_atARG, VM.execLine_atTHIS, VM.execLine_atTHAT, VM.execLine_at5,
        VM.execLine_DA, VM.execLine_DM, VM.execLine_AM, VM.execLine_MD, VM.execLine_MMp1,
        VM.execLine_DDmA, VM.resolveSym_SP, VM.resolveSym_LCL, VM.resolveSym_ARG,
        VM.resolveSym_THIS, VM.resolveSym_THAT, VM.resolveSym_five, VM.resolveSym_natStr,
        VM.w_lit0, VM.w_lit1, VM.w_lit2, VM.w_lit3, VM.w_lit4, VM.w_lit5,
        VM.w_w, VM.w_add, VM.w_add_l, VM.w_add_r, Option.some.injEq]
      exact ⟨_, rfl⟩
    have hm48n := hm48
    simp only [VM.execSeq, VM.execLine_at, VM.execLine_atSP, VM.execLine_atLCL,
        VM.execLine_atARG, VM.execLine_atTHIS, VM.execLine_atTHAT, VM.execLine_at5,
        VM.execLine_DA, VM.execLine_DM, VM.execLine_AM, VM.execLine_MD, VM.execLine_MMp1,
        VM.execLine_DDmA, VM.resolveSym_SP, VM.resolveSym_LCL, VM.resolveSym_ARG,
        VM.resolveSym_THIS, VM.resolveSym_THAT, VM.resolveSym_five, VM.resolveSym_natStr,
        VM.w_lit0, VM.w_lit1, VM.w_lit2, VM.w_lit3, VM.w_lit4, VM.w_lit5,
        VM.w_w, VM.w_add, VM.w_add_l, VM.w_add_r, Option.some.injEq] at hm48n
    have ha : m48.a = VM.w (VM.resolveSym (VM.writeCall f n lc) env f) := by
      rw [← hm48n]
    refine ⟨m48, ?_, ?_⟩
    · unfold VM.runBlock
      rw [VM.run_seg 100 52 0 48 hm48 rfl (by simp) (by simp)]
      have hstep : VM.step (VM.writeCall f n lc) env m48 48 =
          some (m48, VM.w (VM.resolveSym (VM.writeCall f n lc) env f)) := by
        rw [← ha]
        exact VM.step_jump rfl (VM.execLine_JMP _ _) (VM.cstep_JMP _)
      rw [VM.run_one 52 51 48 (VM.w (VM.resolveSym (VM.writeCall f n lc) env f)) hstep
        (by simp [VM.writeCall]) (by simp)]
      exact VM.run_exit (by simp)
        (by rw [show (VM.writeCall f n lc).length = 50 from by simp [VM.writeCall]]; omega)
    · rw [← hm48n]
      simp [VM.wr_ram_self,
        VM.wr_ram_ne,
        hA0,
        hA1,
        hA2,
        hA3,
        hA4,
        hA5,
        hS5,
        hWn,
        hSn,
        (show (0:Nat) ≠ st.ram 0 from by omega),
        (show st.ram 0 ≠ (0:Nat) from by omega),
        (show (0:Nat) ≠ st.ram 0 + 1 from by omega),
        (show st.ram 0 + 1 ≠ (0:Nat) from by omega),
        (show (0:Nat) ≠ st.ram 0 + 2 from by omega),
        (show st.ram 0 + 2 ≠ (0:Nat) from by omega),
        (show (0:Nat) ≠ st.ram 0 + 3 from by omega),
        (show st.ram 0 + 3 ≠ (0:Nat) from by omega),
        (show (0:Nat) ≠ st.ram 0 + 4 from by omega),
        (show st.ram 0 + 4 ≠ (0:Nat) from by omega),
        (show (1:Nat) ≠ st.ram 0 from by omega),
        (show st.ram 0 ≠ (1:Nat) from by omega),
        (show (1:Nat) ≠ st.ram 0 + 1 from by omega),
        (show st.ram 0 + 1 ≠ (1:Nat) from by omega),
        (show (1:Nat) ≠ st.ram 0 + 2 from by omega),
        (show st.ram 0 + 2 ≠ (1:Nat) from by omega),
        (show (1:Nat) ≠ st.ram 0 + 3 from by omega),
        (show st.ram 0 + 3 ≠ (1:Nat) from by omega),
        (show (1:Nat) ≠ st.ram 0 + 4 from by omega),
        (show st.ram 0 + 4 ≠ (1:Nat) from by omega),
        (show (2:Nat) ≠ st.ram 0 from by omega),
        (show st.ram 0 ≠ (2:Nat) from by omega),
        (show (2:Nat) ≠ st.ram 0 + 1 from by omega),
        (show st.ram 0 + 1 ≠ (2:Nat) from by omega),
        (show (2:Nat) ≠ st.ram 0 + 2 from by omega),
        (show st.ram 0 + 2 ≠ (2:Nat) from by omega),
        (show (2:Nat) ≠ st.ram 0 + 3 from by omega),
        (show st.ram 0 + 3 ≠ (2:Nat) from by omega),
        (show (2:Nat) ≠ st.ram 0 + 4 from by omega),
        (show st.ram 0 + 4 ≠ (2:Nat) from by omega),
        (show (3:Nat) ≠ st.ram 0 from by omega),
        (show st.ram 0 ≠ (3:Nat) from by omega),
        (show (3:Nat) ≠ st.ram 0 + 1 from by omega),
        (show st.ram 0 + 1 ≠ (3:Nat) from by omega),
        (show (3:Nat) ≠ st.ram 0 + 2 from by omega),
        (show st.ram 0 + 2 ≠ (3:Nat) from by omega),
        (show (3:Nat) ≠ st.ram 0 + 3 from by omega),
        (show st.ram 0 + 3 ≠ (3:Nat) from by omega),
        (show (3:Nat) ≠ st.ram 0 + 4 from by omega),
        (show st.ram 0 + 4 ≠ (3:Nat) from by omega),
        (show (4:Nat) ≠ st.ram 0 from by omega),
        (show st.ram 0 ≠ (4:Nat) from by omega),
        (show (4:Nat) ≠ st.ram 0 + 1 from by omega),
        (show st.ram 0 + 1 ≠ (4:Nat) from by omega),
        (show (4:Nat) ≠ st.ram 0 + 2 from by omega),
        (show st.ram 0 + 2 ≠ (4:Nat) from by omega),
        (show (4:Nat) ≠ st.ram 0 + 3 from by omega),
        (show st.ram 0 + 3 ≠ (4:Nat) from by omega),
        (show (4:Nat) ≠ st.ram 0 + 4 from by omega),
        (show st.ram 0 + 4 ≠ (4:Nat) from by omega),
        (show st.ram 0 ≠ st.ram 0 + 1 from by omega),
        (show st.ram 0 ≠ st.ram 0 + 2 from by omega),
        (show st.ram 0 ≠ st.ram 0 + 3 from by omega),
        (show st.ram 0 ≠ st.ram 0 + 4 from by omega),
        (show st.ram 0 + 1 ≠ st.ram 0 from by omega),
        (show st.ram 0 + 1 ≠ st.ram 0 + 2 from by omega),
        (show st.ram 0 + 1 ≠ st.ram 0 + 3 from by omega),
        (show st.ram 0 + 1 ≠ st.ram 0 + 4 from by omega),
        (show st.ram 0 + 2 ≠ st.ram 0 from by omega),
        (show st.ram 0 + 2 ≠ st.ram 0 + 1 from by omega),
        (show st.ram 0 + 2 ≠ st.ram 0 + 3 from by omega),
        (show st.ram 0 + 2 ≠ st.ram 0 + 4 from by omega),
        (show st.ram 0 + 3 ≠ st.ram 0 from by omega),
        (show st.ram 0 + 3 ≠ st.ram 0 + 1 from by omega),
        (show st.ram 0 + 3 ≠ st.ram 0 + 2 from by omega),
        (show st.ram 0 + 3 ≠ st.ram 0 + 4 from by omega),
        (show st.ram 0 + 4 ≠ st.ram 0 from by omega),
        (show st.ram 0 + 4 ≠ st.ram 0 + 1 from by omega),
        (show st.ram 0 + 4 ≠ st.ram 0 + 2 from by omega),
        (show st.ram 0 + 4 ≠ st.ram 0 + 3 from by omega)]
  · intro f n lc
    rfl
  · intro cmds c0 k j f g n m c c2 h1 h2 hkj heq
    have hcc : c = c2 := VM.mintedLabels_counter_ne
      (show VM.returnAddrLabel f c ∈ VM.mintedLabels (.callCmd f n) c by
        simp [VM.mintedLabels])
      (show VM.returnAddrLabel f c ∈ VM.mintedLabels (.callCmd g m) c2 by
        rw [heq]
        simp [VM.mintedLabels])
    have hget1 := VM.translateCounters_get cmds c0 k
    rw [h1] at hget1
    have hget2 := VM.translateCounters_get cmds c0 j
    rw [h2] at hget2
    have hc1 : c = c0 + k + 1 := by
      cases hcm : cmds[k]? with
      | none => rw [hcm] at hget1; cases hget1
      | some cmd =>
        rw [hcm] at hget1
        have hp : (VM.VMCommand.callCmd f n, c) = (cmd, c0 + k + 1) := by
          simpa using hget1
        exact congrArg Prod.snd hp
    have hc2 : c2 = c0 + j + 1 := by
      cases hcm : cmds[j]? with
      | none => rw [hcm] at hget2; cases hget2
      | some cmd =>
        rw [hcm] at hget2
        have hp : (VM.VMCommand.callCmd g m, c2) = (cmd, c0 + j + 1) := by
          simpa using hget2
        exact congrArg Prod.snd hp
    omega

set_option maxHeartbeats 4000000 in
/-- Witness for C1: `call Main.foo 2` at label counter 1 on a machine with
SP = 256 pushes the five frame words, sets ARG = 254 and LCL = SP = 261,
and jumps to the address the environment assigns to `Main.foo`. -/
theorem claim_C1_writeCall_witness :
    ∃ m2 : VM.Mach,
      VM.runBlock (VM.writeCall "Main.foo" 2 1) VM.vmFixEnv VM.vmFixSt =
        some (m2, VM.w (VM.resolveSym (VM.writeCall "Main.foo" 2 1) VM.vmFixEnv "Main.foo")) ∧
      m2.ram (VM.vmFixSt.ram 0) =
        VM.w (VM.resolveSym (VM.writeCall "Main.foo" 2 1) VM.vmFixEnv
          (VM.returnAddrLabel "Main.foo" 1)) ∧
      m2.ram (VM.vmFixSt.ram 0 + 1) = VM.w (VM.vmFixSt.ram 1) ∧
      m2.ram (VM.vmFixSt.ram 0 + 2) = VM.w (VM.vmFixSt.ram 2) ∧
      m2.ram (VM.vmFixSt.ram 0 + 3) = VM.w (VM.vmFixSt.ram 3) ∧
      m2.ram (VM.vmFixSt.ram 0 + 4) = VM.w (VM.vmFixSt.ram 4) ∧
      m2.ram 0 = VM.vmFixSt.ram 0 + 5 ∧
      m2.ram 2 = VM.vmFixSt.ram 0 - 2 ∧
      m2.ram 1 = VM.vmFixSt.ram 0 + 5 :=
  claim_C1_writeCall.1 "Main.foo" 2 1 VM.vmFixEnv VM.vmFixSt
    (by decide) (by decide) (by decide) (by decide) (by decide)

set_option maxHeartbeats 4000000 in
/-- C2 (amended): the `return` block stores the frame end (the value of
LCL) and the return address *(endFrame − 5) in the assembler-allocated
named variables `endframe` and `retAddr` — NOT in R13/R14 as the
specification (following the source comments) says; with those scratch
cells out of the way it copies the stack top to *ARG, sets SP to ARG + 1,
restores THAT, THIS, ARG, LCL from endFrame − 1, −2, −3, −4 in that order,
and ends with an indirect jump to the stored return address.  The block
never addresses R13 or R14. -/
theorem claim_C2_writeReturn :
    (∀ (env : String → Nat) (st : VM.Mach),
      1 ≤ st.ram 0 → st.ram 0 < VM.W →
      10 ≤ st.ram 1 → st.ram 1 < VM.W →
      5 ≤ st.ram 2 → st.ram 2 + 1 < VM.W →
      16 ≤ env "endframe" → env "endframe" < VM.W →
      16 ≤ env "retAddr" → env "retAddr" < VM.W →
      env "endframe" ≠ env "retAddr" →
      env "endframe" ≠ st.ram 2 → env "endframe" ≠ st.ram 0 - 1 →
      env "endframe" ≠ st.ram 1 - 1 → env "endframe" ≠ st.ram 1 - 2 →
      env "endframe" ≠ st.ram 1 - 3 → env "endframe" ≠ st.ram 1 - 4 →
      env "endframe" ≠ st.ram 1 - 5 →
      env "retAddr" ≠ st.ram 2 → env "retAddr" ≠ st.ram 0 - 1 →
      env "retAddr" ≠ st.ram 1 - 1 → env "retAddr" ≠ st.ram 1 - 2 →
      env "retAddr" ≠ st.ram 1 - 3 → env "retAddr" ≠ st.ram 1 - 4 →
      env "retAddr" ≠ st.ram 1 - 5 →
      st.ram 2 ≠ st.ram 1 - 1 → st.ram 2 ≠ st.ram 1 - 2 →
      st.ram 2 ≠ st.ram 1 - 3 → st.ram 2 ≠ st.ram 1 - 4 →
      st.ram 2 ≠ st.ram 1 - 5 →
      55 ≤ VM.w (st.ram (st.ram 1 - 5)) →
      ∃ m2 : VM.Mach,
        VM.runBlock VM.writeReturnAsm env st =
          some (m2, VM.w (st.ram (st.ram 1 - 5))) ∧
        m2.ram (env "endframe") = st.ram 1 ∧
        m2.ram (env "retAddr") = VM.w (st.ram (st.ram 1 - 5)) ∧
        m2.ram (st.ram 2) = VM.w (st.ram (st.ram 0 - 1)) ∧
        m2.ram 0 = st.ram 2 + 1 ∧
        m2.ram 4 = VM.w (st.ram (st.ram 1 - 1)) ∧
        m2.ram 3 = VM.w (st.ram (st.ram 1 - 2)) ∧
        m2.ram 2 = VM.w (st.ram (st.ram 1 - 3)) ∧
        m2.ram 1 = VM.w (st.ram (st.ram 1 - 4))) ∧
    (VM.writeReturnAsm[2]? = some "@endframe" ∧
     VM.writeReturnAsm[10]? = some "@retAddr" ∧
     "@R13" ∉ VM.writeReturnAsm ∧ "@R14" ∉ VM.writeReturnAsm) := by
  constructor
  · intro env st hS1 hSW hL10 hLW hA5 hAW hE16 hEW hR16 hRW hER hEA hES
      hE1 hE2 hE3 hE4 hE5 hRA hRS hR1 hR2 hR3 hR4 hR5 hAf1 hAf2 hAf3 hAf4 hAf5 hRet
    have hresE : VM.resolveSym VM.writeReturnAsm env "endframe" = env "endframe" := rfl
    have hresR : VM.resolveSym VM.writeReturnAsm env "retAddr" = env "retAddr" := rfl
    have hwE : VM.w (env "endframe") = env "endframe" := VM.w_small hEW
    have hwR : VM.w (env "retAddr") = env "retAddr" := VM.w_small hRW
    have hwS : VM.w (st.ram 0) = st.ram 0 := VM.w_small hSW
    have hwL : VM.w (st.ram 1) = st.ram 1 := VM.w_small hLW
    have hwA : VM.w (st.ram 2) = st.ram 2 := VM.w_small (by omega)
    have hsubS : VM.wsub (st.ram 0) 1 = st.ram 0 - 1 := VM.wsub_small (by omega) hSW
    have hfr1 : VM.wsub (st.ram 1) 1 = st.ram 1 - 1 := VM.wsub_small (by omega) hLW
    have hfr2 : VM.wsub (st.ram 1) 2 = st.ram 1 - 2 := VM.wsub_small (by omega) hLW
    have hfr3 : VM.wsub (st.ram 1) 3 = st.ram 1 - 3 := VM.wsub_small (by omega) hLW
    have hfr4 : VM.wsub (st.ram 1) 4 = st.ram 1 - 4 := VM.wsub_small (by omega) hLW
    have hfr5 : VM.wsub (st.ram 1) 5 = st.ram 1 - 5 := VM.wsub_small (by omega) hLW
    have hA1p : VM.w (st.ram 2 + 1) = st.ram 2 + 1 := VM.w_small hAW
    obtain ⟨m54, hm54⟩ : ∃ m54, VM.execSeq (VM.resolveSym VM.writeReturnAsm env)
        ["@LCL", "D=M", "@endframe", "M=D", "@endframe", "D=M", "@" ++ "5", "D=D-A", "A=D", "D=M", "@retAddr", "M=D", "@SP", "A=M-1", "D=M", "@ARG", "A=M", "M=D", "@SP", "M=M-1", "@ARG", "D=M+1", "@SP", "M=D", "@endframe", "D=M", "@" ++ StrAux.natStr 1, "A=D-A", "D=M", "@THAT", "M=D", "@endframe", "D=M", "@" ++ StrAux.natStr 2, "A=D-A", "D=M", "@THIS", "M=D", "@endframe", "D=M", "@" ++ StrAux.natStr 3, "A=D-A", "D=M", "@ARG", "M=D", "@endframe", "D=M", "@" ++ StrAux.natStr 4, "A=D-A", "D=M", "@LCL", "M=D", "@retAddr", "A=M"] st = some m54 := by
      simp [VM.execSeq, hresE, hresR]
    have hm54n := hm54
    simp [VM.execSeq, hresE, hresR] at hm54n
    have ha54 : m54.a = VM.w (st.ram (st.ram 1 - 5)) := by
      rw [← hm54n]
      simp [VM.wr_ram_self,
        VM.wr_ram_ne,
        hresE,
        hresR,
        hwE,
        hwR,
        hwS,
        hwL,
        hwA,
        hsubS,
        hfr1,
        hfr2,
        hfr3,
        hfr4,
        hfr5,
        hA1p,
        (show (0:Nat) ≠ env "endframe" from by omega),
        (show env "endframe" ≠ (0:Nat) from by omega),
        (show (0:Nat) ≠ env "retAddr" from by omega),
        (show env "retAddr" ≠ (0:Nat) from by omega),
        (show (0:Nat) ≠ st.ram 2 from by omega),
        (show st.ram 2 ≠ (0:Nat) from by omega),
        (show (0:Nat) ≠ st.ram 1 - 1 from by omega),
        (show st.ram 1 - 1 ≠ (0:Nat) from by omega),
        (show (0:Nat) ≠ st.ram 1 - 2 from by omega),
        (show st.ram 1 - 2 ≠ (0:Nat) from by omega),
        (show (0:Nat) ≠ st.ram 1 - 3 from by omega),
        (show st.ram 1 - 3 ≠ (0:Nat) from by omega),
        (show (0:Nat) ≠ st.ram 1 - 4 from by omega),
        (show st.ram 1 - 4 ≠ (0:Nat) from by omega),
        (show (0:Nat) ≠ st.ram 1 - 5 from by omega),
        (show st.ram 1 - 5 ≠ (0:Nat) from by omega),
        (show (1:Nat) ≠ env "endframe" from by omega),
        (show env "endframe" ≠ (1:Nat) from by omega),
        (show (1:Nat) ≠ env "retAddr" from by omega),
        (show env "retAddr" ≠ (1:Nat) from by omega),
        (show (1:Nat) ≠ st.ram 2 from by omega),
        (show st.ram 2 ≠ (1:Nat) from by omega),
        (show (1:Nat) ≠ st.ram 1 - 1 from by omega),
        (show st.ram 1 - 1 ≠ (1:Nat) from by omega),
        (show (1:Nat) ≠ st.ram 1 - 2 from by omega),
        (show st.ram 1 - 2 ≠ (1:Nat) from by omega),
        (show (1:Nat) ≠ st.ram 1 - 3 from by omega),
        (show st.ram 1 - 3 ≠ (1:Nat) from by omega),
        (show (1:Nat) ≠ st.ram 1 - 4 from by omega),
        (show st.ram 1 - 4 ≠ (1:Nat) from by omega),
        (show (1:Nat) ≠ st.ram 1 - 5 from by omega),
        (show st.ram 1 - 5 ≠ (1:Nat) from by omega),
        (show (2:Nat) ≠ env "endframe" from by omega),
        (show env "endframe" ≠ (2:Nat) from by omega),
        (show (2:Nat) ≠ env "retAddr" from by omega),
        (show env "retAddr" ≠ (2:Nat) from by omega),
        (show (2:Nat) ≠ st.ram 2 from by omega),
        (show st.ram 2 ≠ (2:Nat) from by omega),
        (show (2:Nat) ≠ st.ram 1 - 1 from by omega),
        (show st.ram 1 - 1 ≠ (2:Nat) from by omega),
        (show (2:Nat) ≠ st.ram 1 - 2 from by omega),
        (show st.ram 1 - 2 ≠ (2:Nat) from by omega),
        (show (2:Nat) ≠ st.ram 1 - 3 from by omega),
        (show st.ram 1 - 3 ≠ (2:Nat) from by omega),
        (show (2:Nat) ≠ st.ram 1 - 4 from by omega),
        (show st.ram 1 - 4 ≠ (2:Nat) from by omega),
        (show (2:Nat) ≠ st.ram 1 - 5 from by omega),
        (show st.ram 1 - 5 ≠ (2:Nat) from by omega),
        (show (3:Nat) ≠ env "endframe" from by omega),
        (show env "endframe" ≠ (3:Nat) from by omega),
        (show (3:Nat) ≠ env "retAddr" from by omega),
        (show env "retAddr" ≠ (3:Nat) from by omega),
        (show (3:Nat) ≠ st.ram 2 from by omega),
        (show st.ram 2 ≠ (3:Nat) from by omega),
        (show (3:Nat) ≠ st.ram 1 - 1 from by omega),
        (show st.ram 1 - 1 ≠ (3:Nat) from by omega),
        (show (3:Nat) ≠ st.ram 1 - 2 from by omega),
        (show st.ram 1 - 2 ≠ (3:Nat) from by omega),
        (show (3:Nat) ≠ st.ram 1 - 3 from by omega),
        (show st.ram 1 - 3 ≠ (3:Nat) from by omega),
        (show (3:Nat) ≠ st.ram 1 - 4 from by omega),
        (show st.ram 1 - 4 ≠ (3:Nat) from by omega),
        (show (3:Nat) ≠ st.ram 1 - 5 from by omega),
        (show st.ram 1 - 5 ≠ (3:Nat) from by omega),
        (show (4:Nat) ≠ env "endframe" from by omega),
        (show env "endframe" ≠ (4:Nat) from by omega),
        (show (4:Nat) ≠ env "retAddr" from by omega),
        (show env "retAddr" ≠ (4:Nat) from by omega),
        (show (4:Nat) ≠ st.ram 2 from by omega),
        (show st.ram 2 ≠ (4:Nat) from by omega),
        (show (4:Nat) ≠ st.ram 1 - 1 from by omega),
        (show st.ram 1 - 1 ≠ (4:Nat) from by omega),
        (show (4:Nat) ≠ st.ram 1 - 2 from by omega),
        (show st.ram 1 - 2 ≠ (4:Nat) from by omega),
        (show (4:Nat) ≠ st.ram 1 - 3 from by omega),
        (show st.ram 1 - 3 ≠ (4:Nat) from by omega),
        (show (4:Nat) ≠ st.ram 1 - 4 from by omega),
        (show st.ram 1 - 4 ≠ (4:Nat) from by omega),
        (show (4:Nat) ≠ st.ram 1 - 5 from by omega),
        (show st.ram 1 - 5 ≠ (4:Nat) from by omega),
        (show env "endframe" ≠ env "retAddr" from by omega),
        (show env "retAddr" ≠ env "endframe" from by omega),
        (show env "endframe" ≠ st.ram 2 from by omega),
        (show st.ram 2 ≠ env "endframe" from by omega),
        (show env "endframe" ≠ st.ram 0 - 1 from by omega),
        (show st.ram 0 - 1 ≠ env "endframe" from by omega),
        (show env "endframe" ≠ st.ram 1 - 1 from by omega),
        (show st.ram 1 - 1 ≠ env "endframe" from by omega),
        (show env "endframe" ≠ st.ram 1 - 2 from by omega),
        (show st.ram 1 - 2 ≠ env "endframe" from by omega),
        (show env "endframe" ≠ st.ram 1 - 3 from by omega),
        (show st.ram 1 - 3 ≠ env "endframe" from by omega),
        (show env "endframe" ≠ st.ram 1 - 4 from by omega),
        (show st.ram 1 - 4 ≠ env "endframe" from by omega),
        (show env "endframe" ≠ st.ram 1 - 5 from by omega),
        (show st.ram 1 - 5 ≠ env "endframe" from by omega),
        (show env "retAddr" ≠ st.ram 2 from by omega),
        (show st.ram 2 ≠ env "retAddr" from by omega),
        (show env "retAddr" ≠ st.ram 0 - 1 from by omega),
        (show st.ram 0 - 1 ≠ env "retAddr" from by omega),
        (show env "retAddr" ≠ st.ram 1 - 1 from by omega),
        (show st.ram 1 - 1 ≠ env "retAddr" from by omega),
        (show env "retAddr" ≠ st.ram 1 - 2 from by omega),
        (show st.ram 1 - 2 ≠ env "retAddr" from by omega),
        (show env "retAddr" ≠ st.ram 1 - 3 from by omega),
        (show st.ram 1 - 3 ≠ env "retAddr" from by omega),
        (show env "retAddr" ≠ st.ram 1 - 4 from by omega),
        (show st.ram 1 - 4 ≠ env "retAddr" from by omega),
        (show env "retAddr" ≠ st.ram 1 - 5 from by omega),
        (show st.ram 1 - 5 ≠ env "retAddr" from by omega),
        (show st.ram 2 ≠ st.ram 1 - 1 from by omega),
        (show st.ram 1 - 1 ≠ st.ram 2 from by omega),
        (show st.ram 2 ≠ st.ram 1 - 2 from by omega),
        (show st.ram 1 - 2 ≠ st.ram 2 from by omega),
        (show st.ram 2 ≠ st.ram 1 - 3 from by omega),
        (show st.ram 1 - 3 ≠ st.ram 2 from by omega),
        (show st.ram 2 ≠ st.ram 1 - 4 from by omega),
        (show st.ram 1 - 4 ≠ st.ram 2 from by omega),
        (show st.ram 2 ≠ st.ram 1 - 5 from by omega),
        (show st.ram 1 - 5 ≠ st.ram 2 from by omega)]
    refine ⟨m54, ?_, ?_⟩
    · unfold VM.runBlock
      rw [VM.run_seg 100 46 0 54 hm54 rfl (by simp) (by simp)]
      have hstep : VM.step VM.writeReturnAsm env m54 54 =
          some (m54, VM.w (st.ram (st.ram 1 - 5))) := by
        rw [← ha54]
        exact VM.step_jump rfl (VM.execLine_JMP _ _) (VM.cstep_JMP _)
      rw [VM.run_one 46 45 54 (VM.w (st.ram (st.ram 1 - 5))) hstep
        (by simp [VM.writeReturnAsm]) (by simp)]
      exact VM.run_exit (by simp)
        (by rw [show VM.writeReturnAsm.length = 55 from by simp [VM.writeReturnAsm]]; omega)
    · rw [← hm54n]
      simp [VM.wr_ram_self,
        VM.wr_ram_ne,
        hresE,
        hresR,
        hwE,
        hwR,
        hwS,
        hwL,
        hwA,
        hsubS,
        hfr1,
        hfr2,
        hfr3,
        hfr4,
        hfr5,
        hA1p,
        (show (0:Nat) ≠ env "endframe" from by omega),
        (show env "endframe" ≠ (0:Nat) from by omega),
        (show (0:Nat) ≠ env "retAddr" from by omega),
        (show env "retAddr" ≠ (0:Nat) from by omega),
        (show (0:Nat) ≠ st.ram 2 from by omega),
        (show st.ram 2 ≠ (0:Nat) from by omega),
        (show (0:Nat) ≠ st.ram 1 - 1 from by omega),
        (show st.ram 1 - 1 ≠ (0:Nat) from by omega),
        (show (0:Nat) ≠ st.ram 1 - 2 from by omega),
        (show st.ram 1 - 2 ≠ (0:Nat) from by omega),
        (show (0:Nat) ≠ st.ram 1 - 3 from by omega),
        (show st.ram 1 - 3 ≠ (0:Nat) from by omega),
        (show (0:Nat) ≠ st.ram 1 - 4 from by omega),
        (show st.ram 1 - 4 ≠ (0:Nat) from by omega),
        (show (0:Nat) ≠ st.ram 1 - 5 from by omega),
        (show st.ram 1 - 5 ≠ (0:Nat) from by omega),
        (show (1:Nat) ≠ env "endframe" from by omega),
        (show env "endframe" ≠ (1:Nat) from by omega),
        (show (1:Nat) ≠ env "retAddr" from by omega),
        (show env "retAddr" ≠ (1:Nat) from by omega),
        (show (1:Nat) ≠ st.ram 2 from by omega),
        (show st.ram 2 ≠ (1:Nat) from by omega),
        (show (1:Nat) ≠ st.ram 1 - 1 from by omega),
        (show st.ram 1 - 1 ≠ (1:Nat) from by omega),
        (show (1:Nat) ≠ st.ram 1 - 2 from by omega),
        (show st.ram 1 - 2 ≠ (1:Nat) from by omega),
        (show (1:Nat) ≠ st.ram 1 - 3 from by omega),
        (show st.ram 1 - 3 ≠ (1:Nat) from by omega),
        (show (1:Nat) ≠ st.ram 1 - 4 from by omega),
        (show st.ram 1 - 4 ≠ (1:Nat) from by omega),
        (show (1:Nat) ≠ st.ram 1 - 5 from by omega),
        (show st.ram 1 - 5 ≠ (1:Nat) from by omega),
        (show (2:Nat) ≠ env "endframe" from by omega),
        (show env "endframe" ≠ (2:Nat) from by omega),
        (show (2:Nat) ≠ env "retAddr" from by omega),
        (show env "retAddr" ≠ (2:Nat) from by omega),
        (show (2:Nat) ≠ st.ram 2 from by omega),
        (show st.ram 2 ≠ (2:Nat) from by omega),
        (show (2:Nat) ≠ st.ram 1 - 1 from by omega),
        (show st.ram 1 - 1 ≠ (2:Nat) from by omega),
        (show (2:Nat) ≠ st.ram 1 - 2 from by omega),
        (show st.ram 1 - 2 ≠ (2:Nat) from by omega),
        (show (2:Nat) ≠ st.ram 1 - 3 from by omega),
        (show st.ram 1 - 3 ≠ (2:Nat) from by omega),
        (show (2:Nat) ≠ st.ram 1 - 4 from by omega),
        (show st.ram 1 - 4 ≠ (2:Nat) from by omega),
        (show (2:Nat) ≠ st.ram 1 - 5 from by omega),
        (show st.ram 1 - 5 ≠ (2:Nat) from by omega),
        (show (3:Nat) ≠ env "endframe" from by omega),
        (show env "endframe" ≠ (3:Nat) from by omega),
        (show (3:Nat) ≠ env "retAddr" from by omega),
        (show env "retAddr" ≠ (3:Nat) from by omega),
        (show (3:Nat) ≠ st.ram 2 from by omega),
        (show st.ram 2 ≠ (3:Nat) from by omega),
        (show (3:Nat) ≠ st.ram 1 - 1 from by omega),
        (show st.ram 1 - 1 ≠ (3:Nat) from by omega),
        (show (3:Nat) ≠ st.ram 1 - 2 from by omega),
        (show st.ram 1 - 2 ≠ (3:Nat) from by omega),
        (show (3:Nat) ≠ st.ram 1 - 3 from by omega),
        (show st.ram 1 - 3 ≠ (3:Nat) from by omega),
        (show (3:Nat) ≠ st.ram 1 - 4 from by omega),
        (show st.ram 1 - 4 ≠ (3:Nat) from by omega),
        (show (3:Nat) ≠ st.ram 1 - 5 from by omega),
        (show st.ram 1 - 5 ≠ (3:Nat) from by omega),
        (show (4:Nat) ≠ env "endframe" from by omega),
        (show env "endframe" ≠ (4:Nat) from by omega),
        (show (4:Nat) ≠ env "retAddr" from by omega),
        (show env "retAddr" ≠ (4:Nat) from by omega),
        (show (4:Nat) ≠ st.ram 2 from by omega),
        (show st.ram 2 ≠ (4:Nat) from by omega),
        (show (4:Nat) ≠ st.ram 1 - 1 from by omega),
        (show st.ram 1 - 1 ≠ (4:Nat) from by omega),
        (show (4:Nat) ≠ st.ram 1 - 2 from by omega),
        (show st.ram 1 - 2 ≠ (4:Nat) from by omega),
        (show (4:Nat) ≠ st.ram 1 - 3 from by omega),
        (show st.ram 1 - 3 ≠ (4:Nat) from by omega),
        (show (4:Nat) ≠ st.ram 1 - 4 from by omega),
        (show st.ram 1 - 4 ≠ (4:Nat) from by omega),
        (show (4:Nat) ≠ st.ram 1 - 5 from by omega),
        (show st.ram 1 - 5 ≠ (4:Nat) from by omega),
        (show env "endframe" ≠ env "retAddr" from by omega),
        (show env "retAddr" ≠ env "endframe" from by omega),
        (show env "endframe" ≠ st.ram 2 from by omega),
        (show st.ram 2 ≠ env "endframe" from by omega),
        (show env "endframe" ≠ st.ram 0 - 1 from by omega),
        (show st.ram 0 - 1 ≠ env "endframe" from by omega),
        (show env "endframe" ≠ st.ram 1 - 1 from by omega),
        (show st.ram 1 - 1 ≠ env "endframe" from by omega),
        (show env "endframe" ≠ st.ram 1 - 2 from by omega),
        (show st.ram 1 - 2 ≠ env "endframe" from by omega),
        (show env "endframe" ≠ st.ram 1 - 3 from by omega),
        (show st.ram 1 - 3 ≠ env "endframe" from by omega),
        (show env "endframe" ≠ st.ram 1 - 4 from by omega),
        (show st.ram 1 - 4 ≠ env "endframe" from by omega),
        (show env "endframe" ≠ st.ram 1 - 5 from by omega),
        (show st.ram 1 - 5 ≠ env "endframe" from by omega),
        (show env "retAddr" ≠ st.ram 2 from by omega),
        (show st.ram 2 ≠ env "retAddr" from by omega),
        (show env "retAddr" ≠ st.ram 0 - 1 from by omega),
        (show st.ram 0 - 1 ≠ env "retAddr" from by omega),
        (show env "retAddr" ≠ st.ram 1 - 1 from by omega),
        (show st.ram 1 - 1 ≠ env "retAddr" from by omega),
        (show env "retAddr" ≠ st.ram 1 - 2 from by omega),
        (show st.ram 1 - 2 ≠ env "retAddr" from by omega),
        (show env "retAddr" ≠ st.ram 1 - 3 from by omega),
        (show st.ram 1 - 3 ≠ env "retAddr" from by omega),
        (show env "retAddr" ≠ st.ram 1 - 4 from by omega),
        (show st.ram 1 - 4 ≠ env "retAddr" from by omega),
        (show env "retAddr" ≠ st.ram 1 - 5 from by omega),
        (show st.ram 1 - 5 ≠ env "retAddr" from by omega),
        (show st.ram 2 ≠ st.ram 1 - 1 from by omega),
        (show st.ram 1 - 1 ≠ st.ram 2 from by omega),
        (show st.ram 2 ≠ st.ram 1 - 2 from by omega),
        (show st.ram 1 - 2 ≠ st.ram 2 from by omega),
        (show st.ram 2 ≠ st.ram 1 - 3 from by omega),
        (show st.ram 1 - 3 ≠ st.ram 2 from by omega),
        (show st.ram 2 ≠ st.ram 1 - 4 from by omega),
        (show st.ram 1 - 4 ≠ st.ram 2 from by omega),
        (show st.ram 2 ≠ st.ram 1 - 5 from by omega),
        (show st.ram 1 - 5 ≠ st.ram 2 from by omega)]
  · exact ⟨rfl, rfl, by decide, by decide⟩

set_option maxHeartbeats 1000000 in
/-- Witness for C2: on the fixture frame (LCL = 200, return address 600 at
RAM[195], SP = 300 with 42 on top, ARG = 290, `endframe` at 16, `retAddr`
at 17) the block ends jumping to 600 with RAM[16] = 200, RAM[17] = 600,
RAM[290] = 42, SP = 291, and THAT, THIS, ARG, LCL restored from the frame. -/
theorem claim_C2_writeReturn_witness :
    ∃ m2 : VM.Mach,
      VM.runBlock VM.writeReturnAsm VM.c2Env VM.c2St =
        some (m2, VM.w (VM.c2St.ram (VM.c2St.ram 1 - 5))) ∧
      m2.ram (VM.c2Env "endframe") = VM.c2St.ram 1 ∧
      m2.ram (VM.c2Env "retAddr") = VM.w (VM.c2St.ram (VM.c2St.ram 1 - 5)) ∧
      m2.ram (VM.c2St.ram 2) = VM.w (VM.c2St.ram (VM.c2St.ram 0 - 1)) ∧
      m2.ram 0 = VM.c2St.ram 2 + 1 ∧
      m2.ram 4 = VM.w (VM.c2St.ram (VM.c2St.ram 1 - 1)) ∧
      m2.ram 3 = VM.w (VM.c2St.ram (VM.c2St.ram 1 - 2)) ∧
      m2.ram 2 = VM.w (VM.c2St.ram (VM.c2St.ram 1 - 3)) ∧
      m2.ram 1 = VM.w (VM.c2St.ram (VM.c2St.ram 1 - 4)) :=
  claim_C2_writeReturn.1 VM.c2Env VM.c2St
    (by decide) (by decide) (by decide) (by decide) (by decide) (by decide)
    (by decide) (by decide) (by decide) (by decide) (by decide) (by decide)
    (by decide) (by decide) (by decide) (by decide) (by decide) (by decide)
    (by decide) (by decide) (by decide) (by decide) (by decide) (by decide)
    (by decide) (by decide) (by decide) (by decide) (by decide) (by decide)
    (by decide)

/-- Counterexample to C2 as stated: running the emitted return block on the
fixture frame leaves R13 and R14 (RAM[13], RAM[14]) at their initial value
0 — the frame end 200 and return address 600 land in the named variables
`endframe` (RAM[16]) and `retAddr` (RAM[17]) instead, so the spec's "in
R13"/"in R14" does not describe the code. -/
theorem claim_C2_counterexample :
    (VM.runBlock VM.writeReturnAsm VM.c2Env VM.c2St).map
        (fun p => (p.1.ram 13, p.1.ram 14, p.1.ram 16, p.1.ram 17)) =
      some (0, 0, 200, 600) := by
  exact of_decide_eq_true (by with_unfolding_all rfl)
